import Mathlib

/-!
# multirole: credential chaining and the credentials-file codec

A shallow embedding of `main.go` and `config.go`.

* Go strings and byte buffers are Lean `String`s; a `*string` is an `Option String`.
* A `time.Time` is seen through its accessors `Year()`, `Month()`, `Day()`, `Hour()`,
  `Minute()`, `Second()`; the source formats a time with exactly these accessors.
* Go `error` values are represented by their message (`err.Error()`), which is what the
  verb `%v` prints.
* The calls that leave the process (AWS SDK, stdin, clock, file system, map iteration
  order) are the fields of `Env`; `AssumeAll` threads an explicit `World` that records the
  credentials file, the buffers handed to `ioutil.WriteFile` and the requests sent.
* A nil-pointer dereference is a panic, kept apart from a returned error (`Result`).
* `LoadExistingProfile` takes the INI reader (package mini, outside the repository) as an
  argument; `time.Parse` follows format.go of the Go standard library.
-/

namespace Multirole

/-! ## Data model -/

/-- A `time.Time`, seen through the accessors the source calls on it. -/
structure Time where
  Year : Int
  Month : Nat
  Day : Nat
  Hour : Nat
  Minute : Nat
  Second : Nat
deriving DecidableEq, Repr

/-- The ranges that the accessors of every `time.Time` stay in. -/
def Time.WellFormed (t : Time) : Prop :=
  1 ≤ t.Month ∧ t.Month ≤ 12 ∧ 1 ≤ t.Day ∧ t.Day ≤ 31 ∧
    t.Hour ≤ 23 ∧ t.Minute ≤ 59 ∧ t.Second ≤ 59

instance (t : Time) : Decidable t.WellFormed := by
  unfold Time.WellFormed; infer_instance

/-- The type `sts.Credentials`: every field is a pointer. -/
structure Credentials where
  AccessKeyId : Option String
  SecretAccessKey : Option String
  SessionToken : Option String
  Expiration : Option Time
deriving DecidableEq, Repr

/-- The helper `strPtr` of `main.go`. -/
def strPtr (s : String) : Option String := some s

/-- The helper `int64Ptr` of `main.go`. -/
def int64Ptr (i : Int) : Option Int := some i

/-! ## `fmt` verbs used by the source -/

/-- The verb `%d` applied to an `int`. -/
def fmtD : Int → String
  | Int.ofNat n => Nat.repr n
  | Int.negSucc n => "-" ++ Nat.repr (n + 1)

/-- The verb `%02d` applied to a non-negative `int`: at least two digits, padded with `0`. -/
def fmt02d (n : Nat) : String :=
  if n < 10 then "0" ++ Nat.repr n else Nat.repr n

/-- The timestamp built in `writeStanza` (main.go lines 151-153):
`fmt.Sprintf("%d-%02d-%02dT%02d:%02d:%02d+00:00", ...)`. -/
def expirationStamp (t : Time) : String :=
  fmtD t.Year ++ "-" ++ fmt02d t.Month ++ "-" ++ fmt02d t.Day ++ "T" ++
    fmt02d t.Hour ++ ":" ++ fmt02d t.Minute ++ ":" ++ fmt02d t.Second ++ "+00:00"

/-! ## `writeStanza` (main.go lines 136-157) -/

/-- The closure `writeVal` of `writeStanza`: appends `fmt.Sprintf("%s = %s\n", k, v)`. -/
def writeVal (w : String) (k v : String) : String :=
  w ++ (k ++ " = " ++ v ++ "\n")

/-- The closure `writeStanza` inside `writeStanza`: appends `fmt.Sprintf("[%s]\n", s)`. -/
def writeHeader (w : String) (s : String) : String :=
  w ++ ("[" ++ s ++ "]\n")

/-- The function `writeStanza`. The buffer is passed in and the extended buffer is returned;
`none` is the nil-pointer panic of `creds.AccessKeyId` when `creds` is nil. -/
def writeStanza (w : String) (name : String) (creds : Option Credentials) : Option String :=
  let w := writeHeader w name
  match creds with
  | none => none
  | some c =>
    let w :=
      match c.AccessKeyId, c.SecretAccessKey with
      | some a, some s => writeVal (writeVal w "aws_access_key_id" a) "aws_secret_access_key" s
      | _, _ => w
    let w :=
      match c.SessionToken with
      | some t => writeVal w "aws_session_token" t
      | none => w
    let w :=
      match c.Expiration with
      | some t => writeVal w "awsmfa_expiration" (expirationStamp t)
      | none => w
    some (w ++ "\n")

/-! ## The stanza format as the specification words it -/

/-- The verb `%04d` applied to an `int`: the zero-padded four-digit year `YYYY`. -/
def fmt04d : Int → String
  | Int.ofNat n =>
    if n < 10 then "000" ++ Nat.repr n
    else if n < 100 then "00" ++ Nat.repr n
    else if n < 1000 then "0" ++ Nat.repr n
    else Nat.repr n
  | Int.negSucc n =>
    if n + 1 < 10 then "-00" ++ Nat.repr (n + 1)
    else if n + 1 < 100 then "-0" ++ Nat.repr (n + 1)
    else "-" ++ Nat.repr (n + 1)

/-- The stamp of the specification: zero-padded `YYYY-MM-DDTHH:MM:SS` followed by `+00:00`. -/
def specStamp (t : Time) : String :=
  fmt04d t.Year ++ "-" ++ fmt02d t.Month ++ "-" ++ fmt02d t.Day ++ "T" ++
    fmt02d t.Hour ++ ":" ++ fmt02d t.Minute ++ ":" ++ fmt02d t.Second ++ "+00:00"

/-- The bytes of one stanza, given the rendering of the expiration: header line, the two key
lines, the optional token line, the optional expiration line, and the closing empty line. -/
def stanzaWith (stamp : Time → String) (name id secret : String) (token : Option String)
    (expiration : Option Time) : String :=
  "[" ++ name ++ "]\n" ++
  ("aws_access_key_id = " ++ id ++ "\n") ++
  ("aws_secret_access_key = " ++ secret ++ "\n") ++
  (match token with
    | some t => "aws_session_token = " ++ t ++ "\n"
    | none => "") ++
  (match expiration with
    | some e => "awsmfa_expiration = " ++ stamp e ++ "\n"
    | none => "") ++
  "\n"

/-! ## Configuration (config.go) -/

/-- One `[[profile]]` entry of the configuration. -/
structure AssumeProfile where
  Name : String
  ARN : String
deriving DecidableEq, Repr

/-- The configuration read by `LoadConfig`. -/
structure Config where
  IdentityProfile : String
  MFASerial : String
  Profiles : List AssumeProfile
deriving DecidableEq, Repr

/-! ## The world outside `AssumeAll` -/

/-- The fields of `aws.Credentials` that the source reads or sets. -/
structure AwsCredentials where
  AccessKeyID : String
  SecretAccessKey : String
  SessionToken : String
  Expires : Time
deriving DecidableEq, Repr

/-- The fields of `sts.GetSessionTokenInput` that the source sets. -/
structure GetSessionTokenInput where
  TokenCode : Option String
  SerialNumber : Option String
deriving DecidableEq, Repr

/-- The fields of `sts.AssumeRoleInput` that the source sets. -/
structure AssumeRoleInput where
  DurationSeconds : Option Int
  RoleArn : Option String
  RoleSessionName : Option String
deriving DecidableEq, Repr

/-- The variable `assumedRoles`, a `map[string]*sts.Credentials`: keys are pairwise distinct. -/
abbrev RoleMap := List (String × Option Credentials)

/-- The assignment `m[k] = v` on a Go map. -/
def RoleMap.set : RoleMap → String → Option Credentials → RoleMap
  | [], k, v => [(k, v)]
  | (k1, v1) :: rest, k, v =>
    if k1 = k then (k, v) :: rest else (k1, v1) :: RoleMap.set rest k v

/-- Outcomes of everything `AssumeAll` calls outside the process. An `error` is its message. -/
structure Env where
  /-- Line 55: `external.LoadDefaultAWSConfig` with the credentials file and the identity
  profile; `some e` is a non-nil error. -/
  LoadDefaultAWSConfig : String → String → Option String
  /-- Line 62: `cfg.Credentials.Retrieve()`. -/
  Retrieve : Except String AwsCredentials
  /-- Line 66: `stscreds.StdinTokenProvider()`. -/
  StdinTokenProvider : Except String String
  /-- Lines 76-77: the get-session-token request; on success the `Credentials` pointer of the
  response. -/
  GetSessionToken : GetSessionTokenInput → Except String (Option Credentials)
  /-- Line 90: `external.LoadDefaultAWSConfig(external.WithCredentialsValue(dc))`. -/
  LoadDefaultAWSConfigWithCredentials : AwsCredentials → Option String
  /-- Line 94: `time.Now().UTC()`. -/
  Now : Time
  /-- Lines 109-110: the assume-role request number `i` of the run (counting from 0); on
  success the `Credentials` pointer of the response. -/
  AssumeRole : Nat → AssumeRoleInput → Except String (Option Credentials)
  /-- Line 127: the order in which `range` visits the entries of the map. -/
  rangeOrder : RoleMap → RoleMap
  /-- Line 132: `ioutil.WriteFile(path, data, 0664)`; `some e` is a non-nil error. -/
  WriteFile : String → String → Option String
  /-- What a failed `ioutil.WriteFile` leaves at the path, from the old content and the data. -/
  afterFailedWrite : Option String → String → Option String

/-- Go's `range` over a map visits every entry exactly once, in an unspecified order. -/
def Env.RangeVisitsEachOnce (env : Env) : Prop :=
  ∀ m : RoleMap, (env.rangeOrder m).Perm m

/-- The observable state around one run. -/
structure World where
  /-- Content of the file at `awsCredsFile`; `none` when it does not exist. -/
  credsFile : Option String
  /-- The buffers handed to `ioutil.WriteFile`, oldest first. -/
  written : List String
  /-- The assume-role requests sent, oldest first. -/
  requests : List AssumeRoleInput
deriving DecidableEq, Repr

/-- How a call of `AssumeAll` ends. -/
inductive Result where
  | returnedNil
  | returnedErr (msg : String)
  | panicked
deriving DecidableEq, Repr

/-! ## `AssumeAll` (main.go lines 53-134) -/

/-- Lines 84-89: the four dereferences `*defaultCreds.AccessKeyId` ... `*defaultCreds.Expiration`;
`none` is a nil-pointer panic. -/
def derefCredentials : Option Credentials → Option AwsCredentials
  | some ⟨some a, some s, some t, some e⟩ => some ⟨a, s, t, e⟩
  | _ => none

/-- Lines 95-97: `fmt.Sprintf("%d%02d%02d_%02d%02d%02d", ...)`. -/
def sessionNameOf (t : Time) : String :=
  fmtD t.Year ++ fmt02d t.Month ++ fmt02d t.Day ++ "_" ++
    fmt02d t.Hour ++ fmt02d t.Minute ++ fmt02d t.Second

/-- Lines 103-108: the request built for one profile. -/
def assumeRoleInput (sessionName : String) (profile : AssumeProfile) : AssumeRoleInput :=
  { DurationSeconds := int64Ptr (60 * 60)
    RoleArn := strPtr profile.ARN
    RoleSessionName := strPtr sessionName }

/-- Lines 102-115: the loop over `conf.Profiles`, started at request number `i` with the
map `m`. Returns the error of the failed iteration or the final map, and the requests sent. -/
def assumeLoop (env : Env) (sessionName : String) :
    List AssumeProfile → Nat → RoleMap → Except String RoleMap × List AssumeRoleInput
  | [], _, m => (Except.ok m, [])
  | profile :: rest, i, m =>
    let ari := assumeRoleInput sessionName profile
    match env.AssumeRole i ari with
    | Except.error e =>
      (Except.error ("could not assume role " ++ profile.Name ++ ": " ++ e), [ari])
    | Except.ok creds =>
      let r := assumeLoop env sessionName rest (i + 1) (RoleMap.set m profile.Name creds)
      (r.1, ari :: r.2)

/-- Lines 127-129: `writeStanza` on every visited entry; `none` is a panic. -/
def writeAssumed (w : String) : List (String × Option Credentials) → Option String
  | [] => some w
  | (k, v) :: rest =>
    match writeStanza w k v with
    | none => none
    | some w1 => writeAssumed w1 rest

/-- Lines 117-129: the buffer `output`; `none` is a panic. -/
def buildOutput (env : Env) (idCreds : AwsCredentials) (defaultCreds : Option Credentials)
    (assumedRoles : RoleMap) : Option String :=
  match writeStanza "" "identity"
      (some ⟨strPtr idCreds.AccessKeyID, strPtr idCreds.SecretAccessKey, none, none⟩) with
  | none => none
  | some w1 =>
    match writeStanza w1 "default" defaultCreds with
    | none => none
    | some w2 => writeAssumed w2 (env.rangeOrder assumedRoles)

/-- Line 132: `ioutil.WriteFile(awsCredsFile, output.Bytes(), 0664)`, its error dropped. -/
def flush (env : Env) (awsCredsFile output : String) (world : World) : World :=
  { world with
    written := world.written ++ [output]
    credsFile :=
      match env.WriteFile awsCredsFile output with
      | none => some output
      | some _ => env.afterFailedWrite world.credsFile output }

/-- The function `AssumeAll`. -/
def AssumeAll (env : Env) (conf : Config) (awsCredsFile : String) (world : World) :
    Result × World :=
  match env.LoadDefaultAWSConfig awsCredsFile conf.IdentityProfile with
  | some e => (Result.returnedErr ("load aws config: " ++ e), world)
  | none =>
  match env.Retrieve with
  | Except.error e => (Result.returnedErr ("cannot export initial creds: " ++ e), world)
  | Except.ok idCreds =>
  match env.StdinTokenProvider with
  | Except.error e => (Result.returnedErr ("token from stdin: " ++ e), world)
  | Except.ok mfatoken =>
  match env.GetSessionToken ⟨strPtr mfatoken, strPtr conf.MFASerial⟩ with
  | Except.error e => (Result.returnedErr e, world)
  | Except.ok defaultCreds =>
  match derefCredentials defaultCreds with
  | none => (Result.panicked, world)
  | some dc =>
    -- line 90: the error of the second load is assigned and never read
    let _err := env.LoadDefaultAWSConfigWithCredentials dc
    let sessionName := sessionNameOf env.Now
    match assumeLoop env sessionName conf.Profiles 0 [] with
    | (Except.error e, reqs) =>
      (Result.returnedErr e, { world with requests := world.requests ++ reqs })
    | (Except.ok assumedRoles, reqs) =>
      let world1 := { world with requests := world.requests ++ reqs }
      match buildOutput env idCreds defaultCreds assumedRoles with
      | none => (Result.panicked, world1)
      | some output => (Result.returnedNil, flush env awsCredsFile output world1)

/-! ## Vocabulary for statements about a run -/

/-- Lines 55-92 end without an error and without a panic, so the run reaches the role loop
with the identity credentials `idCreds` and the session credentials `defaultCreds`. -/
def SessionEstablished (env : Env) (conf : Config) (awsCredsFile : String)
    (idCreds : AwsCredentials) (defaultCreds : Option Credentials) : Prop :=
  env.LoadDefaultAWSConfig awsCredsFile conf.IdentityProfile = none ∧
  env.Retrieve = Except.ok idCreds ∧
  (∃ mfatoken, env.StdinTokenProvider = Except.ok mfatoken ∧
    env.GetSessionToken ⟨strPtr mfatoken, strPtr conf.MFASerial⟩ = Except.ok defaultCreds) ∧
  (∃ dc, derefCredentials defaultCreds = some dc)

/-- The assume-role requests for the roles before index `k` succeed and the one for the role
`p` at index `k` fails with the error `e`. -/
def RoleFailsAt (env : Env) (conf : Config) (k : Nat) (p : AssumeProfile) (e : String) : Prop :=
  conf.Profiles[k]? = some p ∧
  (∀ j q, j < k → conf.Profiles[j]? = some q →
    ∃ c, env.AssumeRole j (assumeRoleInput (sessionNameOf env.Now) q) = Except.ok c) ∧
  env.AssumeRole k (assumeRoleInput (sessionNameOf env.Now) p) = Except.error e

/-- One of the five steps whose error `AssumeAll` checks fails: the first load of the AWS
config (line 55), retrieving the identity credentials, reading the MFA token, the
get-session-token call, or an assume-role call. The second load of the AWS config (line 90),
whose error is never read, is not among them. -/
inductive CheckedStepFails (env : Env) (conf : Config) (awsCredsFile : String) : Prop where
  | loadConfig (e : String)
      (h : env.LoadDefaultAWSConfig awsCredsFile conf.IdentityProfile = some e)
  | retrieve (e : String) (h : env.Retrieve = Except.error e)
  | mfaToken (e : String) (h : env.StdinTokenProvider = Except.error e)
  | getSessionToken (mfatoken e : String) (h : env.StdinTokenProvider = Except.ok mfatoken)
      (h1 : env.GetSessionToken ⟨strPtr mfatoken, strPtr conf.MFASerial⟩ = Except.error e)
  | assumeRole (idCreds : AwsCredentials) (defaultCreds : Option Credentials)
      (hs : SessionEstablished env conf awsCredsFile idCreds defaultCreds)
      (k : Nat) (p : AssumeProfile) (e : String) (h : RoleFailsAt env conf k p e)

/-! ## Sample runs -/

/-- The configuration of the scenario in the specification. -/
def sampleConf : Config :=
  { IdentityProfile := "work"
    MFASerial := "arn:aws:iam::111:mfa/me"
    Profiles := [⟨"prod", "arn:aws:iam::111:role/Prod"⟩, ⟨"dev", "arn:aws:iam::222:role/Dev"⟩] }

/-- The session credentials of the sample runs. -/
def sampleSession : Credentials :=
  ⟨some "ASIASESSION", some "sessionsecret", some "sessiontoken", some ⟨2019, 7, 3, 20, 36, 31⟩⟩

/-- The credentials the sample identity provider hands out for a role. -/
def sampleRoleCreds (arn : Option String) : Credentials :=
  ⟨some "ASIAROLE", some ("secret for " ++ arn.getD ""), some "roletoken",
    some ⟨2019, 7, 3, 9, 36, 31⟩⟩

/-- A run in which every call succeeds. -/
def sampleEnv : Env :=
  { LoadDefaultAWSConfig := fun _ _ => none
    Retrieve := Except.ok ⟨"AKIAIDENTITY", "identitysecret", "", ⟨1, 1, 1, 0, 0, 0⟩⟩
    StdinTokenProvider := Except.ok "123456"
    GetSessionToken := fun _ => Except.ok (some sampleSession)
    LoadDefaultAWSConfigWithCredentials := fun _ => none
    Now := ⟨2019, 7, 3, 8, 36, 31⟩
    AssumeRole := fun _ ari => Except.ok (some (sampleRoleCreds ari.RoleArn))
    rangeOrder := List.reverse
    WriteFile := fun _ _ => none
    afterFailedWrite := fun old _ => old }

/-- The sample run, except that the second assume-role request is refused. -/
def sampleEnvRoleDenied : Env :=
  { sampleEnv with
    AssumeRole := fun i ari =>
      if i = 1 then Except.error "AccessDenied"
      else Except.ok (some (sampleRoleCreds ari.RoleArn)) }

/-- The sample run, except that the credentials file cannot be written. -/
def sampleEnvReadOnly : Env :=
  { sampleEnv with WriteFile := fun _ _ => some "open creds: permission denied" }

/-- The sample run, except that the second load of the AWS config (line 90) fails. -/
def sampleEnvReloadFails : Env :=
  { sampleEnv with
    LoadDefaultAWSConfigWithCredentials := fun _ => some "load shared config: invalid INI file" }

/-- A configuration without roles. -/
def sampleConfNoRoles : Config :=
  { IdentityProfile := "work"
    MFASerial := "arn:aws:iam::111:mfa/me"
    Profiles := [] }

/-- The state before the sample runs: an older credentials file, nothing written or sent. -/
def sampleWorld : World :=
  { credsFile := some "[default]\naws_access_key_id = OLD\n\n"
    written := []
    requests := [] }

/-! ## Stanzas of an output -/

/-- The bytes that one call of `writeStanza` with a non-nil `creds` appends. -/
def stanzaText (name : String) (c : Credentials) : String :=
  "[" ++ name ++ "]\n" ++
  (match c.AccessKeyId, c.SecretAccessKey with
    | some a, some s =>
      "aws_access_key_id = " ++ a ++ "\n" ++ ("aws_secret_access_key = " ++ s ++ "\n")
    | _, _ => "") ++
  (match c.SessionToken with
    | some t => "aws_session_token = " ++ t ++ "\n"
    | none => "") ++
  (match c.Expiration with
    | some e => "awsmfa_expiration = " ++ expirationStamp e ++ "\n"
    | none => "") ++
  "\n"

/-- The bytes of a sequence of stanzas, one after the other. -/
def concatStanzas : List (String × Credentials) → String
  | [] => ""
  | e :: rest => stanzaText e.1 e.2 ++ concatStanzas rest

/-- The keys of a map. -/
def RoleMap.keys (m : RoleMap) : List String := m.map Prod.fst

/-- The names of the configured roles, in the configured order. -/
def Config.roleNames (conf : Config) : List String := conf.Profiles.map AssumeProfile.Name

/-! ## Reading the stanzas back from the bytes -/

/-- The lines of a text: the pieces between line feeds. -/
def splitLines : List Char → List (List Char)
  | [] => [[]]
  | c :: cs =>
    if c = '\n' then [] :: splitLines cs
    else
      match splitLines cs with
      | [] => [[c]]
      | l :: ls => (c :: l) :: ls

/-- The name in a header line `[name]`; `none` for every other line. -/
def headerName : List Char → Option String
  | [] => none
  | c :: rest =>
    if c = '[' ∧ rest.getLast? = some ']' then some (String.mk rest.dropLast) else none

/-- The names of the header lines `[name]` of a text, in order of appearance. -/
def headerNames (text : List Char) : List String :=
  (splitLines text).filterMap headerName

/-- The stanzas of a credentials file, by name: its header lines `[name]`, in order. -/
def stanzaNames (text : String) : List String := headerNames text.data

/-- The string holds no line feed. -/
def lineFree (s : String) : Bool := s.data.all (fun c => c != '\n')

/-- None of the strings of a credential set holds a line feed. -/
def Credentials.lineFree (c : Credentials) : Bool :=
  c.AccessKeyId.all Multirole.lineFree && c.SecretAccessKey.all Multirole.lineFree &&
    c.SessionToken.all Multirole.lineFree

/-- The lines of one stanza, without their line feeds. -/
def stanzaLines (name : String) (c : Credentials) : List String :=
  ["[" ++ name ++ "]"] ++
  (match c.AccessKeyId, c.SecretAccessKey with
    | some a, some s => ["aws_access_key_id = " ++ a, "aws_secret_access_key = " ++ s]
    | _, _ => []) ++
  (match c.SessionToken with
    | some t => ["aws_session_token = " ++ t]
    | none => []) ++
  (match c.Expiration with
    | some e => ["awsmfa_expiration = " ++ expirationStamp e]
    | none => []) ++
  [""]

/-- Every line followed by a line feed. -/
def unlines : List String → String
  | [] => ""
  | l :: ls => l ++ "\n" ++ unlines ls

/-- A configuration in which the first and the last role share the name `prod`. -/
def sampleConfDuplicate : Config :=
  { IdentityProfile := "work"
    MFASerial := "arn:aws:iam::111:mfa/me"
    Profiles :=
      [⟨"prod", "arn:aws:iam::111:role/Prod"⟩, ⟨"dev", "arn:aws:iam::222:role/Dev"⟩,
        ⟨"prod", "arn:aws:iam::333:role/Prod"⟩] }

/-! ## `time.Parse` (package time of Go 1.12, format.go)

`LoadExistingProfile` calls `time.Parse` with a fixed layout. The model follows format.go for
the layout elements that begin with a digit or with `-07`; the cases of `nextStdChunk` for the
characters `J M _ P p Z .` are left out, none of which occurs in that layout. A switch arm of
`Parse` that is not modelled yields `none`.

Later releases of package time build a different `ParseError` for some rejected values (the
range message only after a successful `getnum`, the value before the arm as `ValueElem`) and
check the range of the zone hour; the text followed here is that of Go 1.12. -/

/-- The layout elements (constants `std...`) that begin with a digit or with `-07`. -/
inductive Std where
  | stdZeroMonth | stdZeroDay | stdZeroHour12 | stdZeroMinute | stdZeroSecond | stdYear
  | stdHour | stdNumMonth | stdLongYear | stdDay | stdHour12 | stdMinute | stdSecond
  | stdNumSecondsTz | stdNumColonSecondsTZ | stdNumTZ | stdNumColonTZ | stdNumShortTZ
deriving DecidableEq, Repr

/-- The test `len(s) >= len(p) && s[:len(p)] == p`. -/
def startsWith : List Char → List Char → Bool
  | _, [] => true
  | [], _ :: _ => false
  | c :: s, d :: p => decide (c = d) && startsWith s p

/-- The switch of `nextStdChunk` at one position: the element that begins there, and the
layout after it. -/
def stdAt (layout : List Char) : Option (Std × List Char) :=
  match layout with
  | [] => none
  | c :: rest =>
    if c = '0' then
      match rest with
      | [] => none
      | d :: s =>
        if d = '1' then some (Std.stdZeroMonth, s)
        else if d = '2' then some (Std.stdZeroDay, s)
        else if d = '3' then some (Std.stdZeroHour12, s)
        else if d = '4' then some (Std.stdZeroMinute, s)
        else if d = '5' then some (Std.stdZeroSecond, s)
        else if d = '6' then some (Std.stdYear, s)
        else none
    else if c = '1' then
      match rest with
      | [] => some (Std.stdNumMonth, rest)
      | d :: s => if d = '5' then some (Std.stdHour, s) else some (Std.stdNumMonth, rest)
    else if c = '2' then
      if startsWith layout "2006".data then some (Std.stdLongYear, layout.drop 4)
      else some (Std.stdDay, rest)
    else if c = '3' then some (Std.stdHour12, rest)
    else if c = '4' then some (Std.stdMinute, rest)
    else if c = '5' then some (Std.stdSecond, rest)
    else if c = '-' then
      if startsWith layout "-070000".data then some (Std.stdNumSecondsTz, layout.drop 7)
      else if startsWith layout "-07:00:00".data then
        some (Std.stdNumColonSecondsTZ, layout.drop 9)
      else if startsWith layout "-0700".data then some (Std.stdNumTZ, layout.drop 5)
      else if startsWith layout "-07:00".data then some (Std.stdNumColonTZ, layout.drop 6)
      else if startsWith layout "-07".data then some (Std.stdNumShortTZ, layout.drop 3)
      else none
    else none

/-- The function `nextStdChunk`: the literal text before the first layout element, the
element (`none` for `0`, no element left), and the layout after it. -/
def nextStdChunk : List Char → List Char × Option Std × List Char
  | [] => ([], none, [])
  | c :: rest =>
    match stdAt (c :: rest) with
    | some (std, suffix) => ([], some std, suffix)
    | none =>
      let r := nextStdChunk rest
      (c :: r.1, r.2.1, r.2.2)

/-- The value of a decimal digit, `int(c - '0')`. -/
def digitValue (c : Char) : Int := (c.toNat : Int) - 48

/-- The function `getnum`: a one- or two-digit number (two digits when `fixed`), the rest of
the string, and whether it returned `errBad`. -/
def getnum (s : List Char) (fixed : Bool) : Int × List Char × Bool :=
  match s with
  | [] => (0, s, true)
  | c0 :: r0 =>
    if c0.isDigit then
      match r0 with
      | [] => if fixed then (0, s, true) else (digitValue c0, r0, false)
      | c1 :: r1 =>
        if c1.isDigit then (digitValue c0 * 10 + digitValue c1, r1, false)
        else if fixed then (0, s, true)
        else (digitValue c0, r0, false)
    else (0, s, true)

/-- The function `cutspace`. -/
def cutspace (s : List Char) : List Char := s.dropWhile (fun c => c = ' ')

/-- The loop of the function `skip`, at most `n` rounds: the rest of the value and whether
`errBad` was returned. Every round shortens the literal, so its length many rounds end it. -/
def skipRounds : Nat → List Char → List Char → List Char × Bool
  | _, value, [] => (value, false)
  | 0, value, _ :: _ => (value, true)
  | n + 1, value, p :: ps =>
    if p = ' ' then
      match value with
      | v :: _ =>
        if v ≠ ' ' then (value, true)
        else skipRounds n (cutspace value) (cutspace (p :: ps))
      | [] => skipRounds n (cutspace value) (cutspace (p :: ps))
    else
      match value with
      | [] => (value, true)
      | v :: vs => if v ≠ p then (value, true) else skipRounds n vs ps

/-- The function `skip`. -/
def skip (value literal : List Char) : List Char × Bool :=
  skipRounds literal.length value literal

/-- The function `atoi` on a short string (no overflow): an optional sign, then digits only. -/
def atoi (s : List Char) : Int × Bool :=
  let neg := s.head? = some '-'
  let s1 := if s.head? = some '-' ∨ s.head? = some '+' then s.drop 1 else s
  if s1.all Char.isDigit then
    let x := s1.foldl (fun acc c => acc * 10 + digitValue c) 0
    (if neg then -x else x, false)
  else (0, true)

/-- The local variables of `Parse` that the modelled elements set. -/
structure ParseState where
  year : Int
  month : Int
  day : Int
  hour : Int
  min : Int
  sec : Int
  zoneOffset : Int
deriving DecidableEq, Repr

/-- The type `time.ParseError`. -/
structure ParseError where
  Layout : String
  Value : String
  LayoutElem : String
  ValueElem : String
  Message : String
deriving DecidableEq, Repr

/-- The method `Error` of `ParseError`; `quote` puts the string between double quotes. -/
def ParseError.Error (e : ParseError) : String :=
  if e.Message = "" then
    "parsing time \"" ++ e.Value ++ "\" as \"" ++ e.Layout ++ "\": cannot parse \"" ++
      e.ValueElem ++ "\" as \"" ++ e.LayoutElem ++ "\""
  else "parsing time \"" ++ e.Value ++ "\"" ++ e.Message

/-- What one arm of the switch leaves: the rest of the value, the variables, the
`rangeErrString` and whether `err` is set. -/
structure ArmResult where
  value : List Char
  state : ParseState
  rangeErrString : String
  err : Bool
deriving DecidableEq, Repr

/-- The arms of the switch in `Parse` for the elements of the layout of the source and their
zero-padded or unpadded twins; `none` for an arm that is not modelled. -/
def parseArm (std : Std) (value : List Char) (st : ParseState) : Option ArmResult :=
  match std with
  | Std.stdNumMonth | Std.stdZeroMonth =>
    let r := getnum value (std = Std.stdZeroMonth)
    some ⟨r.2.1, { st with month := r.1 },
      if r.1 ≤ 0 ∨ 12 < r.1 then "month" else "", r.2.2⟩
  | Std.stdDay | Std.stdZeroDay =>
    let r := getnum value (std = Std.stdZeroDay)
    some ⟨r.2.1, { st with day := r.1 }, if r.1 < 0 then "day" else "", r.2.2⟩
  | Std.stdHour =>
    let r := getnum value false
    some ⟨r.2.1, { st with hour := r.1 }, if r.1 < 0 ∨ 24 ≤ r.1 then "hour" else "", r.2.2⟩
  | Std.stdHour12 | Std.stdZeroHour12 =>
    let r := getnum value (std = Std.stdZeroHour12)
    some ⟨r.2.1, { st with hour := r.1 }, if r.1 < 0 ∨ 12 < r.1 then "hour" else "", r.2.2⟩
  | Std.stdMinute | Std.stdZeroMinute =>
    let r := getnum value (std = Std.stdZeroMinute)
    some ⟨r.2.1, { st with min := r.1 }, if r.1 < 0 ∨ 60 ≤ r.1 then "minute" else "", r.2.2⟩
  | Std.stdNumShortTZ =>
    if value.length < 3 then some ⟨value, st, "", true⟩
    else
      let sign := value.take 1
      let hr := atoi ((value.drop 1).take 2)
      let zoneOffset := (hr.1 * 60 + 0) * 60 + 0
      if sign = ['+'] then some ⟨value.drop 3, { st with zoneOffset := zoneOffset }, "", hr.2⟩
      else if sign = ['-'] then
        some ⟨value.drop 3, { st with zoneOffset := -zoneOffset }, "", hr.2⟩
      else some ⟨value.drop 3, { st with zoneOffset := zoneOffset }, "", true⟩
  | _ => none

/-- The loop of `Parse`, at most `n` rounds; every round but the last takes one element off
the layout. `none`: an arm that is not modelled, or no round left. -/
def parseLoop (alayout avalue : String) :
    Nat → List Char → List Char → ParseState → Option (Except ParseError ParseState)
  | 0, _, _, _ => none
  | n + 1, layout, value, st =>
    let chunk := nextStdChunk layout
    let stdstr := (layout.drop chunk.1.length).take
      (layout.length - chunk.1.length - chunk.2.2.length)
    let skipped := skip value chunk.1
    if skipped.2 then
      some (Except.error ⟨alayout, avalue, String.mk chunk.1, String.mk skipped.1, ""⟩)
    else
      match chunk.2.1 with
      | none =>
        if skipped.1.length ≠ 0 then
          some (Except.error ⟨alayout, avalue, "", String.mk skipped.1,
            ": extra text: " ++ String.mk skipped.1⟩)
        else some (Except.ok st)
      | some std =>
        match parseArm std skipped.1 st with
        | none => none
        | some r =>
          if r.rangeErrString ≠ "" then
            some (Except.error ⟨alayout, avalue, String.mk stdstr, String.mk r.value,
              ": " ++ r.rangeErrString ++ " out of range"⟩)
          else if r.err then
            some (Except.error ⟨alayout, avalue, String.mk stdstr, String.mk r.value, ""⟩)
          else parseLoop alayout avalue n chunk.2.2 r.value r.state

/-- The function `isLeap`. -/
def isLeap (year : Int) : Bool := year % 4 = 0 ∧ (year % 100 ≠ 0 ∨ year % 400 = 0)

/-- The function `daysIn`. -/
def daysIn (month year : Int) : Int :=
  if month = 2 then (if isLeap year then 29 else 28)
  else if month = 4 ∨ month = 6 ∨ month = 9 ∨ month = 11 then 30
  else 31

/-- The function `time.Parse` on a layout of modelled elements: the loop, the check of the
day of the month, and the resulting time read through its accessors. -/
def timeParse (layout value : String) : Option (Except ParseError Time) :=
  match parseLoop layout value (layout.length + 1) layout.data value.data
      ⟨0, 1, 1, 0, 0, 0, -1⟩ with
  | none => none
  | some (Except.error e) => some (Except.error e)
  | some (Except.ok st) =>
    if st.day < 1 ∨ st.day > daysIn st.month st.year then
      some (Except.error ⟨layout, value, "", "", ": day out of range"⟩)
    else
      some (Except.ok ⟨st.year, st.month.toNat, st.day.toNat, st.hour.toNat, st.min.toNat,
        st.sec.toNat⟩)

/-! ## `LoadExistingProfile` (main.go lines 159-191) -/

/-- The type `Profile`. -/
structure Profile where
  Name : String
  AWSAccessKeyID : String
  AWSSecretAccessKey : String
  AWSSessionToken : String
  AWSMFAExpiration : Time
deriving DecidableEq, Repr

/-- The value `*mini.Config` that `mini.LoadConfiguration` returns, through the two methods
the source calls on it. Package mini is not part of the repository. -/
structure MiniConfig where
  SectionNames : List String
  StringFromSection : String → String → String → String

/-- Lines 174-189: the loop over the section names. The pair is the `(Profile, error)` that
`LoadExistingProfile` returns; `none` when `time.Parse` leaves the modelled part. -/
def loadSections (loaded : MiniConfig) (profile : String) :
    List String → Profile → Option (Profile × Option String)
  | [], p => some (p, none)
  | name :: rest, p =>
    if name = profile then
      let p1 : Profile :=
        { p with
          Name := name
          AWSAccessKeyID := loaded.StringFromSection name "aws_access_key_id" ""
          AWSSecretAccessKey := loaded.StringFromSection name "aws_secret_access_key" ""
          AWSSessionToken := loaded.StringFromSection name "aws_session_token" "" }
      let timeString := loaded.StringFromSection name "awsmfa_expiration" ""
      if timeString ≠ "" then
        match timeParse "2019-07-03T08:36:31+00:00" timeString with
        | none => none
        | some (Except.error err) =>
          some (p1, some ("timestamp parse error in section " ++ name ++ ": " ++ err.Error))
        | some (Except.ok t) => loadSections loaded profile rest { p1 with AWSMFAExpiration := t }
      else loadSections loaded profile rest p1
    else loadSections loaded profile rest p

/-- The function `LoadExistingProfile`; `LoadConfiguration` stands for
`mini.LoadConfiguration`, which reads and parses the file at the path. -/
def LoadExistingProfile (LoadConfiguration : String → Except String MiniConfig)
    (path profile : String) : Option (Profile × Option String) :=
  let p : Profile := ⟨"", "", "", "", ⟨1, 1, 1, 0, 0, 0⟩⟩
  match LoadConfiguration path with
  | Except.error err => some (p, some err)
  | Except.ok loaded => loadSections loaded profile loaded.SectionNames p

/-- Every run of the loop from this layout on this value ends in a parse error. -/
def Rejects (alayout avalue : String) (n : Nat) (layout value : List Char) : Prop :=
  ∀ st, ∃ e, parseLoop alayout avalue n layout value st = some (Except.error e)

/-- What an INI reader loads from the output of the sample run: the section `default` with
the four keys of its stanza (the other sections are not looked at below). -/
def sampleLoaded : MiniConfig :=
  { SectionNames := ["identity", "default", "dev", "prod"]
    StringFromSection := fun sect key dflt =>
      if sect = "default" then
        if key = "aws_access_key_id" then "ASIASESSION"
        else if key = "aws_secret_access_key" then "sessionsecret"
        else if key = "aws_session_token" then "sessiontoken"
        else if key = "awsmfa_expiration" then "2019-07-03T20:36:31+00:00"
        else dflt
      else dflt }

/-! ## Theorems -/

theorem str_append_assoc (a b c : String) : a ++ b ++ c = a ++ (b ++ c) := by
  apply String.ext
  simp [List.append_assoc]

theorem str_append_empty (a : String) : a ++ "" = a := by
  apply String.ext
  simp

theorem writeStanza_full (w name id secret : String) (token : Option String)
    (expiration : Option Time) :
    writeStanza w name (some ⟨some id, some secret, token, expiration⟩) =
      some (w ++ stanzaWith expirationStamp name id secret token expiration) := by
  cases token <;> cases expiration <;>
    simp [writeStanza, writeHeader, writeVal, stanzaWith, str_append_assoc, str_append_empty]



theorem assumeLoop_nil (env : Env) (sn : String) (i : Nat) (m : RoleMap) :
    assumeLoop env sn [] i m = (Except.ok m, []) := rfl

theorem assumeLoop_cons_error (env : Env) (sn : String) (p : AssumeProfile)
    (rest : List AssumeProfile) (i : Nat) (m : RoleMap) (e : String)
    (h : env.AssumeRole i (assumeRoleInput sn p) = Except.error e) :
    assumeLoop env sn (p :: rest) i m =
      (Except.error ("could not assume role " ++ p.Name ++ ": " ++ e),
        [assumeRoleInput sn p]) := by
  simp only [assumeLoop, h]

theorem assumeLoop_cons_ok (env : Env) (sn : String) (p : AssumeProfile)
    (rest : List AssumeProfile) (i : Nat) (m : RoleMap) (c : Option Credentials)
    (h : env.AssumeRole i (assumeRoleInput sn p) = Except.ok c) :
    assumeLoop env sn (p :: rest) i m =
      ((assumeLoop env sn rest (i + 1) (RoleMap.set m p.Name c)).1,
        assumeRoleInput sn p :: (assumeLoop env sn rest (i + 1) (RoleMap.set m p.Name c)).2) := by
  simp only [assumeLoop, h]

/-- The loop stops at the first failing request: it returns that role's wrapped error and has
sent the requests up to and including the failing one. -/
theorem assumeLoop_fails (env : Env) (sn : String) :
    ∀ (ps : List AssumeProfile) (i : Nat) (m : RoleMap) (k : Nat) (p : AssumeProfile)
      (e : String),
      ps[k]? = some p →
      (∀ j q, j < k → ps[j]? = some q →
        ∃ c, env.AssumeRole (i + j) (assumeRoleInput sn q) = Except.ok c) →
      env.AssumeRole (i + k) (assumeRoleInput sn p) = Except.error e →
      assumeLoop env sn ps i m =
        (Except.error ("could not assume role " ++ p.Name ++ ": " ++ e),
          (ps.take (k + 1)).map (assumeRoleInput sn)) := by
  intro ps
  induction ps with
  | nil => intro i m k p e hk; simp at hk
  | cons q rest ih =>
    intro i m k p e hk hok hfail
    cases k with
    | zero =>
      simp at hk
      subst hk
      rw [assumeLoop_cons_error env sn q rest i m e (by simpa using hfail)]
      simp
    | succ k =>
      obtain ⟨c, hc⟩ := hok 0 q (Nat.succ_pos k) (by simp)
      rw [assumeLoop_cons_ok env sn q rest i m c (by simpa using hc)]
      have hk1 : rest[k]? = some p := by simpa using hk
      have := ih (i + 1) (RoleMap.set m q.Name c) k p e hk1
        (by
          intro j r hj hr
          have := hok (j + 1) r (by omega) (by simpa using hr)
          simpa [Nat.add_assoc, Nat.add_comm 1 j] using this)
        (by simpa [Nat.add_assoc, Nat.add_comm 1 k] using hfail)
      rw [this]
      simp

/-- Whatever happens, the requests sent are those of an initial segment of the profiles. -/
theorem assumeLoop_requests (env : Env) (sn : String) :
    ∀ (ps : List AssumeProfile) (i : Nat) (m : RoleMap),
      ∃ n, n ≤ ps.length ∧
        (assumeLoop env sn ps i m).2 = (ps.take n).map (assumeRoleInput sn) ∧
        (∀ r, (assumeLoop env sn ps i m).1 = Except.ok r → n = ps.length) := by
  intro ps
  induction ps with
  | nil => intro i m; exact ⟨0, by simp [assumeLoop]⟩
  | cons q rest ih =>
    intro i m
    cases h : env.AssumeRole i (assumeRoleInput sn q) with
    | error e =>
      refine ⟨1, by simp, ?_, ?_⟩
      · rw [assumeLoop_cons_error env sn q rest i m e h]; simp
      · intro r hr
        rw [assumeLoop_cons_error env sn q rest i m e h] at hr
        simp at hr
    | ok c =>
      obtain ⟨n, hn, hreq, hall⟩ := ih (i + 1) (RoleMap.set m q.Name c)
      refine ⟨n + 1, by simpa using hn, ?_, ?_⟩
      · rw [assumeLoop_cons_ok env sn q rest i m c h]; simp [hreq]
      · intro r hr
        rw [assumeLoop_cons_ok env sn q rest i m c h] at hr
        simp [hall r hr]

/-- Once the session is established, `AssumeAll` is the role loop followed by the output. -/
theorem AssumeAll_of_session (env : Env) (conf : Config) (path : String) (world : World)
    (idCreds : AwsCredentials) (defaultCreds : Option Credentials)
    (hs : SessionEstablished env conf path idCreds defaultCreds) :
    AssumeAll env conf path world =
      match assumeLoop env (sessionNameOf env.Now) conf.Profiles 0 [] with
      | (Except.error e, reqs) =>
        (Result.returnedErr e, { world with requests := world.requests ++ reqs })
      | (Except.ok assumedRoles, reqs) =>
        match buildOutput env idCreds defaultCreds assumedRoles with
        | none => (Result.panicked, { world with requests := world.requests ++ reqs })
        | some output =>
          (Result.returnedNil,
            flush env path output { world with requests := world.requests ++ reqs }) := by
  obtain ⟨h1, h2, ⟨tok, h3, h4⟩, ⟨dc, h5⟩⟩ := hs
  simp only [AssumeAll, h1, h2, h3, h4, h5]

/-- A run that returns nil went through every step. -/
theorem AssumeAll_nil_inv (env : Env) (conf : Config) (path : String) (world : World)
    (h : (AssumeAll env conf path world).1 = Result.returnedNil) :
    ∃ idCreds defaultCreds assumedRoles output,
      SessionEstablished env conf path idCreds defaultCreds ∧
      (assumeLoop env (sessionNameOf env.Now) conf.Profiles 0 []).1 = Except.ok assumedRoles ∧
      buildOutput env idCreds defaultCreds assumedRoles = some output ∧
      (AssumeAll env conf path world).2 =
        flush env path output
          { world with
            requests := world.requests ++
              (assumeLoop env (sessionNameOf env.Now) conf.Profiles 0 []).2 } := by
  unfold AssumeAll at h ⊢
  cases h1 : env.LoadDefaultAWSConfig path conf.IdentityProfile with
  | some e => simp [h1] at h
  | none =>
  cases h2 : env.Retrieve with
  | error e => simp [h1, h2] at h
  | ok idCreds =>
  cases h3 : env.StdinTokenProvider with
  | error e => simp [h1, h2, h3] at h
  | ok tok =>
  cases h4 : env.GetSessionToken ⟨strPtr tok, strPtr conf.MFASerial⟩ with
  | error e => simp [h1, h2, h3, h4] at h
  | ok defaultCreds =>
  cases h5 : derefCredentials defaultCreds with
  | none => simp [h1, h2, h3, h4, h5] at h
  | some dc =>
  rcases h6 : assumeLoop env (sessionNameOf env.Now) conf.Profiles 0 [] with ⟨r, reqs⟩
  cases r with
  | error e => simp [h1, h2, h3, h4, h5, h6] at h
  | ok m =>
  cases h7 : buildOutput env idCreds defaultCreds m with
  | none => simp [h1, h2, h3, h4, h5, h6, h7] at h
  | some out =>
    refine ⟨idCreds, defaultCreds, m, out, ⟨h1, h2, ⟨tok, h3, h4⟩, ⟨dc, h5⟩⟩, rfl, h7, ?_⟩
    simp [h1, h2, h3, h4, h5, h6, h7]

/-- The requests of a run: none when it stops before the loop, else those of the loop. -/
theorem AssumeAll_requests (env : Env) (conf : Config) (path : String) (world : World) :
    ((AssumeAll env conf path world).1 ≠ Result.returnedNil ∧
        (AssumeAll env conf path world).2.requests = world.requests ++ []) ∨
      (AssumeAll env conf path world).2.requests =
        world.requests ++ (assumeLoop env (sessionNameOf env.Now) conf.Profiles 0 []).2 := by
  unfold AssumeAll
  cases h1 : env.LoadDefaultAWSConfig path conf.IdentityProfile with
  | some e => simp [h1]
  | none =>
  cases h2 : env.Retrieve with
  | error e => simp [h1, h2]
  | ok idCreds =>
  cases h3 : env.StdinTokenProvider with
  | error e => simp [h1, h2, h3]
  | ok tok =>
  cases h4 : env.GetSessionToken ⟨strPtr tok, strPtr conf.MFASerial⟩ with
  | error e => simp [h1, h2, h3, h4]
  | ok defaultCreds =>
  cases h5 : derefCredentials defaultCreds with
  | none => simp [h1, h2, h3, h4, h5]
  | some dc =>
  rcases h6 : assumeLoop env (sessionNameOf env.Now) conf.Profiles 0 [] with ⟨r, reqs⟩
  cases r with
  | error e => simp [h1, h2, h3, h4, h5, h6]
  | ok m =>
  cases h7 : buildOutput env idCreds defaultCreds m with
  | none => simp [h1, h2, h3, h4, h5, h6, h7]
  | some out => simp [h1, h2, h3, h4, h5, h6, h7, flush]

/-- What `AssumeAll` does when the session is established and a role request fails. -/
theorem AssumeAll_role_failure (env : Env) (conf : Config) (path : String)
    (world : World) (idCreds : AwsCredentials) (defaultCreds : Option Credentials)
    (k : Nat) (p : AssumeProfile) (e : String)
    (hs : SessionEstablished env conf path idCreds defaultCreds)
    (hfail : RoleFailsAt env conf k p e) :
    AssumeAll env conf path world =
      (Result.returnedErr ("could not assume role " ++ p.Name ++ ": " ++ e),
        { credsFile := world.credsFile
          written := world.written
          requests := world.requests ++
            (conf.Profiles.take (k + 1)).map (assumeRoleInput (sessionNameOf env.Now)) }) := by
  obtain ⟨hk, hok, hf⟩ := hfail
  rw [AssumeAll_of_session env conf path world idCreds defaultCreds hs,
    assumeLoop_fails env (sessionNameOf env.Now) conf.Profiles 0 [] k p e hk
      (by simpa using hok) (by simpa using hf)]

theorem sampleEnvRoleDenied_session :
    SessionEstablished sampleEnvRoleDenied sampleConf "creds"
      ⟨"AKIAIDENTITY", "identitysecret", "", ⟨1, 1, 1, 0, 0, 0⟩⟩ (some sampleSession) :=
  ⟨rfl, rfl, ⟨"123456", rfl, rfl⟩, ⟨_, rfl⟩⟩

theorem sampleEnvRoleDenied_fails :
    RoleFailsAt sampleEnvRoleDenied sampleConf 1 ⟨"dev", "arn:aws:iam::222:role/Dev"⟩
      "AccessDenied" := by
  refine ⟨rfl, ?_, rfl⟩
  intro j q hj hq
  obtain rfl : j = 0 := by omega
  exact ⟨_, rfl⟩

/-- C7. When the assume-role requests for roles `0..k-1` succeed and the request for role `k`
fails with error `e`, `AssumeAll` returns the error `could not assume role <name of role k>: <e>`,
has sent exactly the requests for roles `0..k` (none for a later role), and leaves the
credentials file and the list of writes as they were. -/
theorem role_failure_names_role_and_stops (env : Env) (conf : Config) (path : String)
    (world : World) (idCreds : AwsCredentials) (defaultCreds : Option Credentials)
    (k : Nat) (p : AssumeProfile) (e : String)
    (hs : SessionEstablished env conf path idCreds defaultCreds)
    (hfail : RoleFailsAt env conf k p e) :
    AssumeAll env conf path world =
      (Result.returnedErr ("could not assume role " ++ p.Name ++ ": " ++ e),
        { credsFile := world.credsFile
          written := world.written
          requests := world.requests ++
            (conf.Profiles.take (k + 1)).map (assumeRoleInput (sessionNameOf env.Now)) }) := by
  obtain ⟨hk, hok, hf⟩ := hfail
  have hloop := assumeLoop_fails env (sessionNameOf env.Now) conf.Profiles 0 [] k p e hk
    (by simpa using hok) (by simpa using hf)
  rw [AssumeAll_of_session env conf path world idCreds defaultCreds hs, hloop]

theorem role_failure_names_role_and_stops_witness :
    SessionEstablished sampleEnvRoleDenied sampleConf "creds"
        ⟨"AKIAIDENTITY", "identitysecret", "", ⟨1, 1, 1, 0, 0, 0⟩⟩ (some sampleSession) ∧
      RoleFailsAt sampleEnvRoleDenied sampleConf 1 ⟨"dev", "arn:aws:iam::222:role/Dev"⟩
        "AccessDenied" ∧
      AssumeAll sampleEnvRoleDenied sampleConf "creds" sampleWorld =
        (Result.returnedErr "could not assume role dev: AccessDenied",
          { credsFile := sampleWorld.credsFile
            written := []
            requests :=
              [⟨some 3600, some "arn:aws:iam::111:role/Prod", some "20190703_083631"⟩,
                ⟨some 3600, some "arn:aws:iam::222:role/Dev", some "20190703_083631"⟩] }) :=
  ⟨sampleEnvRoleDenied_session, sampleEnvRoleDenied_fails,
    role_failure_names_role_and_stops sampleEnvRoleDenied sampleConf "creds" sampleWorld _ _ 1
      ⟨"dev", "arn:aws:iam::222:role/Dev"⟩ "AccessDenied" sampleEnvRoleDenied_session
      sampleEnvRoleDenied_fails⟩

/-- If one of the five steps whose error is checked fails (the first load of the AWS config,
retrieving the identity credentials, reading the MFA token, the get-session-token call, or one
of the assume-role calls), `AssumeAll` returns an error, calls `ioutil.WriteFile` not at all,
and the credentials file has the content it had before the run. -/
theorem checked_step_failure_aborts_before_write (env : Env) (conf : Config) (path : String)
    (world : World) (h : CheckedStepFails env conf path) :
    (∃ msg, (AssumeAll env conf path world).1 = Result.returnedErr msg) ∧
      (AssumeAll env conf path world).2.written = world.written ∧
      (AssumeAll env conf path world).2.credsFile = world.credsFile := by
  cases h with
  | loadConfig e h => simp [AssumeAll, h]
  | retrieve e h =>
    cases h1 : env.LoadDefaultAWSConfig path conf.IdentityProfile <;> simp [AssumeAll, h, h1]
  | mfaToken e h =>
    cases h1 : env.LoadDefaultAWSConfig path conf.IdentityProfile <;>
      cases h2 : env.Retrieve <;> simp [AssumeAll, h, h1, h2]
  | getSessionToken tok e h h4 =>
    cases h1 : env.LoadDefaultAWSConfig path conf.IdentityProfile <;>
      cases h2 : env.Retrieve <;> simp [AssumeAll, h, h1, h2, h4]
  | assumeRole idCreds defaultCreds hs k p e hfail =>
    rw [AssumeAll_role_failure env conf path world idCreds defaultCreds k p e hs hfail]
    simp

theorem checked_step_failure_aborts_before_write_sample :
    CheckedStepFails sampleEnvRoleDenied sampleConf "creds" ∧
      (∃ msg, (AssumeAll sampleEnvRoleDenied sampleConf "creds" sampleWorld).1 =
        Result.returnedErr msg) ∧
      (AssumeAll sampleEnvRoleDenied sampleConf "creds" sampleWorld).2.written = [] ∧
      (AssumeAll sampleEnvRoleDenied sampleConf "creds" sampleWorld).2.credsFile =
        some "[default]\naws_access_key_id = OLD\n\n" :=
  ⟨CheckedStepFails.assumeRole _ _ sampleEnvRoleDenied_session 1 _ _ sampleEnvRoleDenied_fails,
    checked_step_failure_aborts_before_write sampleEnvRoleDenied sampleConf "creds" sampleWorld
      (CheckedStepFails.assumeRole _ _ sampleEnvRoleDenied_session 1 _ _
        sampleEnvRoleDenied_fails)⟩

theorem assumeLoop_congr (env env2 : Env) (sn : String)
    (h : env.AssumeRole = env2.AssumeRole) :
    ∀ (ps : List AssumeProfile) (i : Nat) (m : RoleMap),
      assumeLoop env sn ps i m = assumeLoop env2 sn ps i m := by
  intro ps
  induction ps with
  | nil => intro i m; rfl
  | cons q rest ih =>
    intro i m
    simp only [assumeLoop, h, ih]

/-- The outcome of the second load of the AWS config (line 90) has no effect on the run:
its error is assigned and never read. -/
theorem AssumeAll_ignores_second_load (env : Env) (conf : Config) (path : String)
    (world : World) (reload : AwsCredentials → Option String) :
    AssumeAll { env with LoadDefaultAWSConfigWithCredentials := reload } conf path world =
      AssumeAll env conf path world := by
  have hloop := assumeLoop_congr
    { env with LoadDefaultAWSConfigWithCredentials := reload } env (sessionNameOf env.Now) rfl
    conf.Profiles 0 []
  simp only [AssumeAll, hloop, buildOutput, flush]

set_option maxRecDepth 100000 in
/-- C2. Evaluation where a step before the flush fails and the run goes on: with no role
configured and every checked step succeeding, the second `external.LoadDefaultAWSConfig`
(line 90) returns an error; `AssumeAll` still returns nil and replaces the content of the
credentials file by the identity and default stanzas. -/
theorem second_config_load_error_is_dropped :
    derefCredentials (some sampleSession) =
      some ⟨"ASIASESSION", "sessionsecret", "sessiontoken", ⟨2019, 7, 3, 20, 36, 31⟩⟩ ∧
    sampleEnvReloadFails.LoadDefaultAWSConfigWithCredentials
        ⟨"ASIASESSION", "sessionsecret", "sessiontoken", ⟨2019, 7, 3, 20, 36, 31⟩⟩ =
      some "load shared config: invalid INI file" ∧
    (AssumeAll sampleEnvReloadFails sampleConfNoRoles "creds" sampleWorld).1 =
      Result.returnedNil ∧
    (AssumeAll sampleEnvReloadFails sampleConfNoRoles "creds" sampleWorld).2.written =
      ["[identity]\naws_access_key_id = AKIAIDENTITY\naws_secret_access_key = identitysecret\n\n[default]\naws_access_key_id = ASIASESSION\naws_secret_access_key = sessionsecret\naws_session_token = sessiontoken\nawsmfa_expiration = 2019-07-03T20:36:31+00:00\n\n"] ∧
    (AssumeAll sampleEnvReloadFails sampleConfNoRoles "creds" sampleWorld).2.credsFile =
      some "[identity]\naws_access_key_id = AKIAIDENTITY\naws_secret_access_key = identitysecret\n\n[default]\naws_access_key_id = ASIASESSION\naws_secret_access_key = sessionsecret\naws_session_token = sessiontoken\nawsmfa_expiration = 2019-07-03T20:36:31+00:00\n\n" ∧
    (AssumeAll sampleEnvReloadFails sampleConfNoRoles "creds" sampleWorld).2.credsFile ≠
      sampleWorld.credsFile := by
  refine ⟨rfl, rfl, rfl, rfl, rfl, ?_⟩
  decide

theorem toDigitsCore_one (f n : Nat) (ds : List Char) (hn : n < 10) :
    Nat.toDigitsCore 10 (f + 1) n ds = Nat.digitChar n :: ds := by
  have h0 : n / 10 = 0 := by omega
  have h1 : n % 10 = n := by omega
  simp [Nat.toDigitsCore, h0, h1]

theorem toDigitsCore_two (f n : Nat) (ds : List Char) (h1 : 10 ≤ n) (h2 : n < 100) :
    Nat.toDigitsCore 10 (f + 2) n ds = Nat.digitChar (n / 10) :: Nat.digitChar (n % 10) :: ds := by
  have h0 : n / 10 ≠ 0 := by omega
  rw [Nat.toDigitsCore]
  simp only [h0, if_false]
  exact toDigitsCore_one f (n / 10) _ (by omega)

theorem toDigitsCore_three (f n : Nat) (ds : List Char) (h1 : 100 ≤ n) (h2 : n < 1000) :
    Nat.toDigitsCore 10 (f + 3) n ds =
      Nat.digitChar (n / 100) :: Nat.digitChar (n / 10 % 10) :: Nat.digitChar (n % 10) :: ds := by
  have h0 : n / 10 ≠ 0 := by omega
  rw [Nat.toDigitsCore]
  simp only [h0, if_false]
  rw [toDigitsCore_two f (n / 10) _ (by omega) (by omega)]
  have : n / 10 / 10 = n / 100 := by omega
  rw [this]

theorem toDigitsCore_four (f n : Nat) (ds : List Char) (h1 : 1000 ≤ n) (h2 : n < 10000) :
    Nat.toDigitsCore 10 (f + 4) n ds =
      Nat.digitChar (n / 1000) :: Nat.digitChar (n / 100 % 10) :: Nat.digitChar (n / 10 % 10) ::
        Nat.digitChar (n % 10) :: ds := by
  have h0 : n / 10 ≠ 0 := by omega
  rw [Nat.toDigitsCore]
  simp only [h0, if_false]
  rw [toDigitsCore_three f (n / 10) _ (by omega) (by omega)]
  have e1 : n / 10 / 100 = n / 1000 := by omega
  have e2 : n / 10 / 10 % 10 = n / 100 % 10 := by omega
  rw [e1, e2]

theorem repr_four (n : Nat) (h1 : 1000 ≤ n) (h2 : n < 10000) :
    (Nat.repr n).data =
      [Nat.digitChar (n / 1000), Nat.digitChar (n / 100 % 10), Nat.digitChar (n / 10 % 10),
        Nat.digitChar (n % 10)] := by
  obtain ⟨f, rfl⟩ : ∃ f, n = f + 3 := ⟨n - 3, by omega⟩
  simp only [Nat.repr, Nat.toDigits, List.asString]
  exact toDigitsCore_four f (f + 3) [] h1 h2

theorem fmt02d_data (n : Nat) (h : n < 100) :
    (fmt02d n).data = [Nat.digitChar (n / 10), Nat.digitChar (n % 10)] := by
  unfold fmt02d
  by_cases h10 : n < 10
  · have h0 : n / 10 = 0 := by omega
    have h1 : n % 10 = n := by omega
    simp only [h10, if_true, String.data_append, Nat.repr, Nat.toDigits, List.asString]
    rw [toDigitsCore_one n n [] h10, h0, h1]
    rfl
  · obtain ⟨f, rfl⟩ : ∃ f, n = f + 1 := ⟨n - 1, by omega⟩
    simp only [h10, if_false, Nat.repr, Nat.toDigits, List.asString]
    exact toDigitsCore_two f (f + 1) [] (by omega) h

theorem assumeRoleInput_eq (sn : String) (p : AssumeProfile) :
    assumeRoleInput sn p = ⟨some 3600, some p.ARN, some sn⟩ := rfl

/-- C8. In every run, whatever the number of roles, the assume-role requests that `AssumeAll`
sends are, in order, those of the first `n` configured roles for some `n` (all of them when the
run returns nil), and the request for a role has `DurationSeconds` 3600 and `RoleArn` equal to
the ARN configured for that role. -/
theorem requests_one_hour_and_role_arn (env : Env) (conf : Config) (path : String)
    (world : World) :
    ∃ n, n ≤ conf.Profiles.length ∧
      ((AssumeAll env conf path world).1 = Result.returnedNil → n = conf.Profiles.length) ∧
      (AssumeAll env conf path world).2.requests =
        world.requests ++
          (conf.Profiles.take n).map
            (fun role => ⟨some 3600, some role.ARN, some (sessionNameOf env.Now)⟩) := by
  rcases AssumeAll_requests env conf path world with ⟨hne, h⟩ | h
  · exact ⟨0, Nat.zero_le _, fun hnil => absurd hnil hne, by simpa using h⟩
  · obtain ⟨n, hn, hreq, hall⟩ :=
      assumeLoop_requests env (sessionNameOf env.Now) conf.Profiles 0 []
    refine ⟨n, hn, ?_, ?_⟩
    · intro hnil
      obtain ⟨_, _, m, _, _, hm, _, _⟩ := AssumeAll_nil_inv env conf path world hnil
      exact hall m hm
    · rw [h, hreq]
      rfl

theorem digitChar_isDigit (n : Nat) (h : n < 10) : (Nat.digitChar n).isDigit = true := by
  interval_cases n <;> rfl

theorem sessionNameOf_data (t : Time) (hwf : t.WellFormed) (h1 : 1000 ≤ t.Year)
    (h2 : t.Year ≤ 9999) :
    (sessionNameOf t).data =
      [Nat.digitChar (t.Year.toNat / 1000), Nat.digitChar (t.Year.toNat / 100 % 10),
        Nat.digitChar (t.Year.toNat / 10 % 10), Nat.digitChar (t.Year.toNat % 10),
        Nat.digitChar (t.Month / 10), Nat.digitChar (t.Month % 10),
        Nat.digitChar (t.Day / 10), Nat.digitChar (t.Day % 10),
        '_',
        Nat.digitChar (t.Hour / 10), Nat.digitChar (t.Hour % 10),
        Nat.digitChar (t.Minute / 10), Nat.digitChar (t.Minute % 10),
        Nat.digitChar (t.Second / 10), Nat.digitChar (t.Second % 10)] := by
  obtain ⟨hm1, hm2, hd1, hd2, hh, hmi, hs⟩ := hwf
  obtain ⟨y, hy⟩ := Int.eq_ofNat_of_zero_le (by omega : 0 ≤ t.Year)
  have hfy : fmtD t.Year = Nat.repr y := by rw [hy]; rfl
  have hty : t.Year.toNat = y := by rw [hy]; rfl
  simp only [sessionNameOf, String.data_append, hfy, hty,
    repr_four y (by omega) (by omega),
    fmt02d_data t.Month (by omega), fmt02d_data t.Day (by omega), fmt02d_data t.Hour (by omega),
    fmt02d_data t.Minute (by omega), fmt02d_data t.Second (by omega)]
  rfl

/-- C9. Every assume-role request of one run carries the same `RoleSessionName`, the rendering
of the single clock reading `t` taken before the loop; for a year in 1000..9999 that name is
exactly the 15 characters `YYYYMMDD_HHMMSS`: four year digits, two digits each for month and
day, an underscore, two digits each for hour, minute and second. -/
theorem shared_session_name (env : Env) (conf : Config) (path : String) (world : World)
    (hwf : env.Now.WellFormed) (h1 : 1000 ≤ env.Now.Year) (h2 : env.Now.Year ≤ 9999) :
    (∃ reqs, (AssumeAll env conf path world).2.requests = world.requests ++ reqs ∧
        ∀ r ∈ reqs, r.RoleSessionName = some (sessionNameOf env.Now)) ∧
      (sessionNameOf env.Now).data =
        [Nat.digitChar (env.Now.Year.toNat / 1000), Nat.digitChar (env.Now.Year.toNat / 100 % 10),
          Nat.digitChar (env.Now.Year.toNat / 10 % 10), Nat.digitChar (env.Now.Year.toNat % 10),
          Nat.digitChar (env.Now.Month / 10), Nat.digitChar (env.Now.Month % 10),
          Nat.digitChar (env.Now.Day / 10), Nat.digitChar (env.Now.Day % 10),
          '_',
          Nat.digitChar (env.Now.Hour / 10), Nat.digitChar (env.Now.Hour % 10),
          Nat.digitChar (env.Now.Minute / 10), Nat.digitChar (env.Now.Minute % 10),
          Nat.digitChar (env.Now.Second / 10), Nat.digitChar (env.Now.Second % 10)] ∧
      (sessionNameOf env.Now).length = 15 ∧
      (((sessionNameOf env.Now).data.take 8).all Char.isDigit = true ∧
        ((sessionNameOf env.Now).data.drop 9).all Char.isDigit = true) := by
  have hdata := sessionNameOf_data env.Now hwf h1 h2
  refine ⟨?_, hdata, ?_, ?_⟩
  · rcases AssumeAll_requests env conf path world with ⟨_, h⟩ | h
    · exact ⟨[], h, by simp⟩
    · refine ⟨_, h, ?_⟩
      obtain ⟨n, _, hreq, _⟩ :=
        assumeLoop_requests env (sessionNameOf env.Now) conf.Profiles 0 []
      rw [hreq]
      intro r hr
      obtain ⟨p, _, rfl⟩ := List.mem_map.mp hr
      rfl
  · simp [String.length, hdata]
  · obtain ⟨hm1, hm2, hd1, hd2, hh, hmi, hs⟩ := hwf
    have hy : env.Now.Year.toNat / 1000 < 10 := by omega
    rw [hdata]
    simp [digitChar_isDigit, hy, Nat.mod_lt, Nat.div_lt_iff_lt_mul, hm2, hd2,
      show env.Now.Month / 10 < 10 by omega, show env.Now.Day / 10 < 10 by omega,
      show env.Now.Hour / 10 < 10 by omega, show env.Now.Minute / 10 < 10 by omega,
      show env.Now.Second / 10 < 10 by omega]

theorem shared_session_name_witness :
    sampleEnv.Now.WellFormed ∧
      (∃ reqs, (AssumeAll sampleEnv sampleConf "creds" sampleWorld).2.requests =
          sampleWorld.requests ++ reqs ∧
        ∀ r ∈ reqs, r.RoleSessionName = some (sessionNameOf sampleEnv.Now)) ∧
      (sessionNameOf sampleEnv.Now).data =
        ['2', '0', '1', '9', '0', '7', '0', '3', '_', '0', '8', '3', '6', '3', '1'] :=
  ⟨by decide,
    (shared_session_name sampleEnv sampleConf "creds" sampleWorld (by decide) (by decide)
      (by decide)).1,
    (shared_session_name sampleEnv sampleConf "creds" sampleWorld (by decide) (by decide)
      (by decide)).2.1⟩

set_option maxRecDepth 100000 in
/-- C3. Evaluation at an unwritable destination: every step succeeds, `ioutil.WriteFile`
returns an error, and `AssumeAll` still returns nil while the credentials file keeps its old
content, which has neither the identity stanza nor any role stanza. -/
theorem write_error_is_dropped :
    sampleEnvReadOnly.WriteFile "creds"
        ((AssumeAll sampleEnvReadOnly sampleConf "creds" sampleWorld).2.written.getD 0 "") =
      some "open creds: permission denied" ∧
    (AssumeAll sampleEnvReadOnly sampleConf "creds" sampleWorld).1 = Result.returnedNil ∧
    (AssumeAll sampleEnvReadOnly sampleConf "creds" sampleWorld).2.credsFile =
      some "[default]\naws_access_key_id = OLD\n\n" ∧
    (AssumeAll sampleEnvReadOnly sampleConf "creds" sampleWorld).2.written =
      ["[identity]\naws_access_key_id = AKIAIDENTITY\naws_secret_access_key = identitysecret\n\n[default]\naws_access_key_id = ASIASESSION\naws_secret_access_key = sessionsecret\naws_session_token = sessiontoken\nawsmfa_expiration = 2019-07-03T20:36:31+00:00\n\n[dev]\naws_access_key_id = ASIAROLE\naws_secret_access_key = secret for arn:aws:iam::222:role/Dev\naws_session_token = roletoken\nawsmfa_expiration = 2019-07-03T09:36:31+00:00\n\n[prod]\naws_access_key_id = ASIAROLE\naws_secret_access_key = secret for arn:aws:iam::111:role/Prod\naws_session_token = roletoken\nawsmfa_expiration = 2019-07-03T09:36:31+00:00\n\n"] := by
  exact ⟨rfl, rfl, rfl, rfl⟩

theorem writeStanza_some (w name : String) (c : Credentials) :
    writeStanza w name (some c) = some (w ++ stanzaText name c) := by
  rcases c with ⟨a, s, t, e⟩
  cases a <;> cases s <;> cases t <;> cases e <;>
    simp [writeStanza, writeHeader, writeVal, stanzaText, str_append_assoc, str_append_empty]

theorem str_empty_append (a : String) : "" ++ a = a := by
  apply String.ext
  simp

/-- The loop over the visited entries succeeds exactly when no entry holds a nil pointer, and
then it appends the stanzas of the entries in the order visited. -/
theorem writeAssumed_eq_some (l : List (String × Option Credentials)) :
    ∀ (w out : String), writeAssumed w l = some out →
      ∃ roles : List (String × Credentials),
        l = roles.map (fun e => (e.1, some e.2)) ∧ out = w ++ concatStanzas roles := by
  induction l with
  | nil =>
    intro w out h
    refine ⟨[], rfl, ?_⟩
    simp only [writeAssumed, Option.some.injEq] at h
    simp [concatStanzas, str_append_empty, h]
  | cons x rest ih =>
    intro w out h
    rcases x with ⟨k, v⟩
    cases v with
    | none => simp [writeAssumed, writeStanza] at h
    | some c =>
      simp only [writeAssumed, writeStanza_some] at h
      obtain ⟨roles, hl, hout⟩ := ih _ _ h
      refine ⟨(k, c) :: roles, by simp [hl], ?_⟩
      simp [concatStanzas, hout, str_append_assoc]

/-- The output buffer of a run: identity stanza, default stanza, then the visited entries. -/
theorem buildOutput_eq_some (env : Env) (idCreds : AwsCredentials)
    (defaultCreds : Option Credentials) (m : RoleMap) (out : String)
    (h : buildOutput env idCreds defaultCreds m = some out) :
    ∃ (dc : Credentials) (roles : List (String × Credentials)),
      defaultCreds = some dc ∧
      env.rangeOrder m = roles.map (fun e => (e.1, some e.2)) ∧
      out = stanzaText "identity" ⟨some idCreds.AccessKeyID, some idCreds.SecretAccessKey,
          none, none⟩ ++ (stanzaText "default" dc ++ concatStanzas roles) := by
  cases defaultCreds with
  | none => simp [buildOutput, writeStanza, strPtr] at h
  | some dc =>
    simp only [buildOutput, strPtr, writeStanza_some] at h
    obtain ⟨roles, hl, hout⟩ := writeAssumed_eq_some _ _ _ h
    exact ⟨dc, roles, rfl, hl, by simp [hout, str_append_assoc, str_empty_append]⟩

theorem derefCredentials_eq_some (defaultCreds : Option Credentials) (dc : AwsCredentials)
    (h : derefCredentials defaultCreds = some dc) :
    defaultCreds = some ⟨some dc.AccessKeyID, some dc.SecretAccessKey, some dc.SessionToken,
      some dc.Expires⟩ := by
  rcases defaultCreds with _ | ⟨a, s, t, e⟩
  · simp [derefCredentials] at h
  · cases a <;> cases s <;> cases t <;> cases e <;> simp [derefCredentials] at h
    subst h
    rfl

/-- What a run that returns nil has handed to `ioutil.WriteFile`. -/
theorem AssumeAll_nil_written (env : Env) (conf : Config) (path : String) (world : World)
    (h : (AssumeAll env conf path world).1 = Result.returnedNil) :
    ∃ (idCreds : AwsCredentials) (mfatoken : String) (dc : AwsCredentials)
      (m : RoleMap) (roles : List (String × Credentials)),
      env.Retrieve = Except.ok idCreds ∧
      env.StdinTokenProvider = Except.ok mfatoken ∧
      env.GetSessionToken ⟨some mfatoken, some conf.MFASerial⟩ =
        Except.ok (some ⟨some dc.AccessKeyID, some dc.SecretAccessKey, some dc.SessionToken,
          some dc.Expires⟩) ∧
      (assumeLoop env (sessionNameOf env.Now) conf.Profiles 0 []).1 = Except.ok m ∧
      env.rangeOrder m = roles.map (fun e => (e.1, some e.2)) ∧
      (AssumeAll env conf path world).2.written =
        world.written ++
          [stanzaText "identity" ⟨some idCreds.AccessKeyID, some idCreds.SecretAccessKey,
              none, none⟩ ++
            (stanzaText "default" ⟨some dc.AccessKeyID, some dc.SecretAccessKey,
              some dc.SessionToken, some dc.Expires⟩ ++ concatStanzas roles)] := by
  obtain ⟨idCreds, defaultCreds, m, out, hs, hm, hout, hw⟩ :=
    AssumeAll_nil_inv env conf path world h
  obtain ⟨_, h2, ⟨tok, h3, h4⟩, ⟨dc, h5⟩⟩ := hs
  obtain ⟨dc1, roles, hdc, hl, ho⟩ := buildOutput_eq_some env idCreds defaultCreds m out hout
  have hd := derefCredentials_eq_some defaultCreds dc h5
  rw [hd] at hdc h4
  cases hdc
  refine ⟨idCreds, tok, dc, m, roles, h2, h3, h4, hm, hl, ?_⟩
  rw [hw, ho]
  simp [flush]

/-- C6. In the output of every run that returns nil, the first stanza is `[identity]` with
exactly the two lines for the access key id and secret access key that `Retrieve` gave for the
identity profile, and no token or expiration line; the second stanza is `[default]` with the
access key id, secret access key, session token and expiration that the get-session-token call
returned; everything after these two is the sequence of role stanzas, one for each entry of
the map `assumedRoles` in the order in which `range` visits it. -/
theorem identity_then_default_then_roles (env : Env) (conf : Config) (path : String)
    (world : World) (h : (AssumeAll env conf path world).1 = Result.returnedNil) :
    ∃ (idCreds : AwsCredentials) (mfatoken a s t : String) (e : Time)
      (roles : List (String × Credentials)),
      env.Retrieve = Except.ok idCreds ∧
      env.StdinTokenProvider = Except.ok mfatoken ∧
      env.GetSessionToken ⟨some mfatoken, some conf.MFASerial⟩ =
        Except.ok (some ⟨some a, some s, some t, some e⟩) ∧
      (∃ assumedRoles,
        (assumeLoop env (sessionNameOf env.Now) conf.Profiles 0 []).1 = Except.ok assumedRoles ∧
        env.rangeOrder assumedRoles = roles.map (fun r => (r.1, some r.2))) ∧
      (AssumeAll env conf path world).2.written =
        world.written ++
          ["[identity]\n" ++
            ("aws_access_key_id = " ++ idCreds.AccessKeyID ++ "\n") ++
            ("aws_secret_access_key = " ++ idCreds.SecretAccessKey ++ "\n") ++
            "\n" ++
            ("[default]\n" ++
              ("aws_access_key_id = " ++ a ++ "\n") ++
              ("aws_secret_access_key = " ++ s ++ "\n") ++
              ("aws_session_token = " ++ t ++ "\n") ++
              ("awsmfa_expiration = " ++ expirationStamp e ++ "\n") ++
              "\n") ++
            concatStanzas roles] := by
  obtain ⟨idCreds, tok, dc, m, roles, h2, h3, h4, hm, hl, hw⟩ :=
    AssumeAll_nil_written env conf path world h
  refine ⟨idCreds, tok, dc.AccessKeyID, dc.SecretAccessKey, dc.SessionToken, dc.Expires,
    roles, h2, h3, h4, ⟨m, hm, hl⟩, ?_⟩
  rw [hw]
  simp [stanzaText, str_append_assoc, str_append_empty, str_empty_append]

/-! ### The map `assumedRoles` -/

theorem RoleMap.keys_set (m : RoleMap) (k : String) (v : Option Credentials) :
    (RoleMap.set m k v).keys = if k ∈ m.keys then m.keys else m.keys ++ [k] := by
  induction m with
  | nil => simp [RoleMap.set, RoleMap.keys]
  | cons x rest ih =>
    rcases x with ⟨k1, v1⟩
    by_cases h : k1 = k
    · subst h
      simp [RoleMap.set, RoleMap.keys]
    · have h1 : ¬ k = k1 := fun e => h e.symm
      simp only [RoleMap.keys] at ih
      by_cases hm : k ∈ List.map Prod.fst rest
      · simp [RoleMap.set, RoleMap.keys, h, h1, hm, ih]
      · simp [RoleMap.set, RoleMap.keys, h, h1, hm, ih]

theorem RoleMap.mem_keys_set (m : RoleMap) (k : String) (v : Option Credentials) (x : String) :
    x ∈ (RoleMap.set m k v).keys ↔ x = k ∨ x ∈ m.keys := by
  rw [RoleMap.keys_set]
  by_cases h : k ∈ m.keys
  · simp only [h, if_true]
    constructor
    · exact Or.inr
    · rintro (rfl | hx)
      · exact h
      · exact hx
  · simp only [h, if_false, List.mem_append, List.mem_singleton]
    exact Or.comm

theorem RoleMap.nodup_keys_set (m : RoleMap) (k : String) (v : Option Credentials)
    (h : m.keys.Nodup) : (RoleMap.set m k v).keys.Nodup := by
  rw [RoleMap.keys_set]
  by_cases hk : k ∈ m.keys
  · simpa [hk] using h
  · simp only [hk, if_false]
    exact List.Nodup.append h (List.nodup_singleton k) (by simpa using hk)

theorem RoleMap.mem_set_self (m : RoleMap) (k : String) (v : Option Credentials) :
    (k, v) ∈ RoleMap.set m k v := by
  induction m with
  | nil => simp [RoleMap.set]
  | cons x rest ih =>
    rcases x with ⟨k1, v1⟩
    by_cases h : k1 = k
    · simp [RoleMap.set, h]
    · simp [RoleMap.set, h, ih]

theorem RoleMap.mem_set_of_ne (m : RoleMap) (k : String) (v : Option Credentials)
    (e : String × Option Credentials) (he : e ∈ m) (hne : e.1 ≠ k) :
    e ∈ RoleMap.set m k v := by
  induction m with
  | nil => simp at he
  | cons x rest ih =>
    rcases x with ⟨k1, v1⟩
    by_cases h : k1 = k
    · simp only [RoleMap.set, h, if_true]
      rcases List.mem_cons.mp he with rfl | hr
      · exact absurd h hne
      · exact List.mem_cons_of_mem _ hr
    · simp only [RoleMap.set, h, if_false]
      rcases List.mem_cons.mp he with rfl | hr
      · exact List.mem_cons_self _ _
      · exact List.mem_cons_of_mem _ (ih hr)

/-! ### The role loop when every request succeeds -/

theorem assumeLoop_cons_inv (env : Env) (sn : String) (q : AssumeProfile)
    (rest : List AssumeProfile) (i : Nat) (m r : RoleMap)
    (h : (assumeLoop env sn (q :: rest) i m).1 = Except.ok r) :
    ∃ c, env.AssumeRole i (assumeRoleInput sn q) = Except.ok c ∧
      (assumeLoop env sn rest (i + 1) (RoleMap.set m q.Name c)).1 = Except.ok r := by
  cases hc : env.AssumeRole i (assumeRoleInput sn q) with
  | error e =>
    rw [assumeLoop_cons_error env sn q rest i m e hc] at h
    simp at h
  | ok c =>
    rw [assumeLoop_cons_ok env sn q rest i m c hc] at h
    exact ⟨c, rfl, h⟩

theorem assumeLoop_keys (env : Env) (sn : String) :
    ∀ (ps : List AssumeProfile) (i : Nat) (m r : RoleMap),
      (assumeLoop env sn ps i m).1 = Except.ok r →
      (m.keys.Nodup → r.keys.Nodup) ∧
        ∀ x, x ∈ r.keys ↔ x ∈ m.keys ∨ x ∈ ps.map AssumeProfile.Name := by
  intro ps
  induction ps with
  | nil =>
    intro i m r h
    simp only [assumeLoop, Except.ok.injEq] at h
    subst h
    simp
  | cons q rest ih =>
    intro i m r h
    obtain ⟨c, _, hrest⟩ := assumeLoop_cons_inv env sn q rest i m r h
    obtain ⟨hnd, hmem⟩ := ih (i + 1) _ r hrest
    refine ⟨fun hm => hnd (RoleMap.nodup_keys_set m q.Name c hm), ?_⟩
    intro x
    rw [hmem x, RoleMap.mem_keys_set]
    simp only [List.map_cons, List.mem_cons]
    tauto

theorem assumeLoop_keeps (env : Env) (sn : String) :
    ∀ (ps : List AssumeProfile) (i : Nat) (m r : RoleMap),
      (assumeLoop env sn ps i m).1 = Except.ok r →
      ∀ e ∈ m, e.1 ∉ ps.map AssumeProfile.Name → e ∈ r := by
  intro ps
  induction ps with
  | nil =>
    intro i m r h e he _
    simp only [assumeLoop, Except.ok.injEq] at h
    subst h
    exact he
  | cons q rest ih =>
    intro i m r h e he hne
    obtain ⟨c, _, hrest⟩ := assumeLoop_cons_inv env sn q rest i m r h
    simp only [List.map_cons, List.mem_cons, not_or] at hne
    exact ih (i + 1) _ r hrest e (RoleMap.mem_set_of_ne m q.Name c e he hne.1) hne.2

/-- Last write wins: the entry for a name holds the answer to the request of the last
profile that carries the name. -/
theorem assumeLoop_last_wins (env : Env) (sn : String) :
    ∀ (ps : List AssumeProfile) (i : Nat) (m r : RoleMap),
      (assumeLoop env sn ps i m).1 = Except.ok r →
      ∀ (k : Nat) (p : AssumeProfile) (c : Option Credentials),
        ps[k]? = some p →
        (∀ j q, k < j → ps[j]? = some q → q.Name ≠ p.Name) →
        env.AssumeRole (i + k) (assumeRoleInput sn p) = Except.ok c →
        (p.Name, c) ∈ r := by
  intro ps
  induction ps with
  | nil => intro i m r _ k p c hk; simp at hk
  | cons q rest ih =>
    intro i m r h k p c hk hlast hc
    obtain ⟨c1, hc1, hrest⟩ := assumeLoop_cons_inv env sn q rest i m r h
    cases k with
    | zero =>
      simp at hk
      subst hk
      simp only [Nat.add_zero] at hc
      rw [hc1] at hc
      cases hc
      refine assumeLoop_keeps env sn rest (i + 1) _ r hrest _
        (RoleMap.mem_set_self m q.Name _) ?_
      intro hmem
      obtain ⟨q1, hq1, hname⟩ := List.mem_map.mp hmem
      obtain ⟨j, hj, hget⟩ := List.getElem_of_mem hq1
      exact hlast (j + 1) q1 (Nat.succ_pos j)
        (by simp [List.getElem?_eq_getElem hj, hget]) hname
    | succ k =>
      refine ih (i + 1) _ r hrest k p c (by simpa using hk) ?_ ?_
      · intro j q1 hj hq1
        exact hlast (j + 1) q1 (by omega) (by simpa using hq1)
      · simpa [Nat.add_assoc, Nat.add_comm 1 k] using hc

/-! ### Header lines of the output -/

theorem splitLines_ne_nil (cs : List Char) : splitLines cs ≠ [] := by
  cases cs with
  | nil => simp [splitLines]
  | cons c cs =>
    simp only [splitLines]
    split_ifs
    · simp
    · split <;> simp

theorem splitLines_line (l rest : List Char) (h : ∀ c ∈ l, c ≠ '\n') :
    splitLines (l ++ '\n' :: rest) = l :: splitLines rest := by
  induction l with
  | nil => simp [splitLines]
  | cons c l ih =>
    have hc : c ≠ '\n' := h c (List.mem_cons_self _ _)
    have ih1 := ih (fun x hx => h x (List.mem_cons_of_mem _ hx))
    rw [List.cons_append, splitLines]
    simp only [hc, if_false]
    rw [ih1]

theorem lineFree_iff (s : String) : lineFree s = true ↔ ∀ c ∈ s.data, c ≠ '\n' := by
  simp [lineFree]

theorem lineFree_append (a b : String) : lineFree (a ++ b) = (lineFree a && lineFree b) := by
  simp [lineFree]

theorem headerNames_line (l : String) (rest : List Char) (h : lineFree l = true) :
    headerNames ((l ++ "\n").data ++ rest) = (headerName l.data).toList ++ headerNames rest := by
  have e : (l ++ "\n").data ++ rest = l.data ++ '\n' :: rest := by
    simp [String.data_append]
  rw [e, headerNames, splitLines_line l.data rest ((lineFree_iff l).mp h)]
  cases hh : headerName l.data <;> simp [headerNames, List.filterMap_cons, hh]

theorem headerNames_unlines (ls : List String) (rest : List Char)
    (h : ∀ l ∈ ls, lineFree l = true) :
    headerNames ((unlines ls).data ++ rest) =
      ls.filterMap (fun l => headerName l.data) ++ headerNames rest := by
  induction ls with
  | nil => simp [unlines]
  | cons l ls ih =>
    have hl := h l (List.mem_cons_self _ _)
    have ih1 := ih (fun x hx => h x (List.mem_cons_of_mem _ hx))
    simp only [unlines, String.data_append, List.append_assoc] at ih1 ⊢
    have := headerNames_line l ((unlines ls).data ++ rest) hl
    simp only [String.data_append, List.append_assoc] at this
    rw [this, ih1]
    cases hh : headerName l.data <;> simp [List.filterMap_cons, hh]

theorem stanzaText_eq_unlines (name : String) (c : Credentials) :
    stanzaText name c = unlines (stanzaLines name c) := by
  rcases c with ⟨a, s, t, e⟩
  cases a <;> cases s <;> cases t <;> cases e <;>
    simp [stanzaText, stanzaLines, unlines, str_append_assoc, str_append_empty,
      str_empty_append]

theorem digitChar_ne_newline (d : Nat) : Nat.digitChar d ≠ '\n' := by
  by_cases h : d < 16
  · interval_cases d <;> decide
  · have e : Nat.digitChar d = '*' := by
      unfold Nat.digitChar
      simp only [show d ≠ 0 by omega, show d ≠ 1 by omega, show d ≠ 2 by omega,
        show d ≠ 3 by omega, show d ≠ 4 by omega, show d ≠ 5 by omega, show d ≠ 6 by omega,
        show d ≠ 7 by omega, show d ≠ 8 by omega, show d ≠ 9 by omega, show d ≠ 10 by omega,
        show d ≠ 11 by omega, show d ≠ 12 by omega, show d ≠ 13 by omega,
        show d ≠ 14 by omega, show d ≠ 15 by omega, if_false]
    rw [e]
    decide

theorem toDigitsCore_chars (b : Nat) :
    ∀ (f n : Nat) (ds : List Char) (c : Char),
      c ∈ Nat.toDigitsCore b f n ds → c ∈ ds ∨ ∃ d, c = Nat.digitChar d := by
  intro f
  induction f with
  | zero => intro n ds c h; simp [Nat.toDigitsCore] at h; exact Or.inl h
  | succ f ih =>
    intro n ds c h
    simp only [Nat.toDigitsCore] at h
    split_ifs at h
    · rcases List.mem_cons.mp h with rfl | h1
      · exact Or.inr ⟨_, rfl⟩
      · exact Or.inl h1
    · rcases ih _ _ c h with h1 | h1
      · rcases List.mem_cons.mp h1 with rfl | h2
        · exact Or.inr ⟨_, rfl⟩
        · exact Or.inl h2
      · exact Or.inr h1

theorem repr_chars (n : Nat) (c : Char) (h : c ∈ (Nat.repr n).data) :
    ∃ d, c = Nat.digitChar d := by
  simp only [Nat.repr, Nat.toDigits, List.asString] at h
  rcases toDigitsCore_chars 10 _ _ _ c h with h1 | h1
  · simp at h1
  · exact h1

theorem lineFree_repr (n : Nat) : lineFree (Nat.repr n) = true := by
  rw [lineFree_iff]
  intro c hc
  obtain ⟨d, rfl⟩ := repr_chars n c hc
  exact digitChar_ne_newline d

theorem lineFree_fmtD (i : Int) : lineFree (fmtD i) = true := by
  cases i with
  | ofNat n => exact lineFree_repr n
  | negSucc n =>
    simp only [fmtD, lineFree_append, lineFree_repr, Bool.and_true]
    rfl

theorem lineFree_fmt02d (n : Nat) : lineFree (fmt02d n) = true := by
  unfold fmt02d
  split_ifs
  · simp only [lineFree_append, lineFree_repr, Bool.and_true]
    rfl
  · exact lineFree_repr n

theorem lineFree_expirationStamp (t : Time) : lineFree (expirationStamp t) = true := by
  simp only [expirationStamp, lineFree_append, lineFree_fmtD, lineFree_fmt02d, Bool.and_true,
    Bool.true_and]
  simp [lineFree]

theorem headerName_bracketed (name : String) :
    headerName ("[" ++ name ++ "]").data = some name := by
  have e : ("[" ++ name ++ "]").data = '[' :: (name.data ++ [']']) := by
    simp [String.data_append]
  rw [e]
  simp [headerName, List.dropLast_concat]

theorem headerName_key (k v : String) (c : Char) (ks : List Char) (hk : k.data = c :: ks)
    (hc : c ≠ '[') : headerName (k ++ v).data = none := by
  simp [String.data_append, hk, headerName, hc]

theorem headerName_empty : headerName ("" : String).data = none := rfl

theorem headerName_nil : headerName [] = none := rfl

theorem stanzaLines_lineFree (name : String) (c : Credentials)
    (hn : lineFree name = true) (hc : c.lineFree = true) :
    (stanzaLines name c).all lineFree = true := by
  rcases c with ⟨a, s, t, e⟩
  have b1 : lineFree "[" = true := by simp [lineFree]
  have b2 : lineFree "]" = true := by simp [lineFree]
  have l1 : lineFree "aws_access_key_id = " = true := by simp [lineFree]
  have l2 : lineFree "aws_secret_access_key = " = true := by simp [lineFree]
  have l3 : lineFree "aws_session_token = " = true := by simp [lineFree]
  have l4 : lineFree "awsmfa_expiration = " = true := by simp [lineFree]
  have l5 : lineFree "" = true := by simp [lineFree]
  simp only [Credentials.lineFree, Bool.and_eq_true] at hc
  obtain ⟨⟨ha, hs⟩, ht⟩ := hc
  cases a <;> cases s <;> cases t <;> cases e <;>
    (try simp only [Option.all_some] at ha) <;>
    (try simp only [Option.all_some] at hs) <;>
    (try simp only [Option.all_some] at ht) <;>
    simp only [stanzaLines, List.cons_append, List.nil_append, List.append_nil, List.all_cons,
      List.all_nil, lineFree_append, lineFree_expirationStamp, b1, b2, l1, l2, l3, l4, l5, hn,
      ha, hs, ht, Bool.and_true, Bool.and_self]

/-- The header lines of one stanza: its own name, then those of the text that follows. -/
theorem headerNames_stanzaText (name : String) (c : Credentials) (rest : List Char)
    (hn : lineFree name = true) (hc : c.lineFree = true) :
    headerNames ((stanzaText name c).data ++ rest) = name :: headerNames rest := by
  rw [stanzaText_eq_unlines, headerNames_unlines]
  · rcases c with ⟨a, s, t, e⟩
    have k1 : ∀ v, headerName ("aws_access_key_id = " ++ v).data = none :=
      fun v => headerName_key _ v 'a' _ rfl (by decide)
    have k2 : ∀ v, headerName ("aws_secret_access_key = " ++ v).data = none :=
      fun v => headerName_key _ v 'a' _ rfl (by decide)
    have k3 : ∀ v, headerName ("aws_session_token = " ++ v).data = none :=
      fun v => headerName_key _ v 'a' _ rfl (by decide)
    have k4 : ∀ v, headerName ("awsmfa_expiration = " ++ v).data = none :=
      fun v => headerName_key _ v 'a' _ rfl (by decide)
    cases a <;> cases s <;> cases t <;> cases e <;>
      simp only [stanzaLines, List.filterMap_cons, List.filterMap_nil, List.cons_append,
        List.nil_append, List.append_nil, headerName_bracketed, headerName_empty,
        headerName_nil, k1, k2, k3, k4]
  · intro l hl
    exact List.all_eq_true.mp (stanzaLines_lineFree name c hn hc) l hl

/-- The header lines of a sequence of stanzas whose strings hold no line feed are exactly the
names of the stanzas, in order. -/
theorem stanzaNames_concatStanzas (l : List (String × Credentials))
    (h : ∀ e ∈ l, lineFree e.1 = true ∧ e.2.lineFree = true) :
    stanzaNames (concatStanzas l) = l.map Prod.fst := by
  induction l with
  | nil => rfl
  | cons e rest ih =>
    have he := h e (List.mem_cons_self _ _)
    have ih1 := ih (fun x hx => h x (List.mem_cons_of_mem _ hx))
    simp only [stanzaNames] at ih1 ⊢
    simp only [concatStanzas, String.data_append, List.map_cons]
    rw [headerNames_stanzaText e.1 e.2 _ he.1 he.2, ih1]

/-! ### The stanzas of a successful run -/

theorem assumeLoop_ok_call (env : Env) (sn : String) :
    ∀ (ps : List AssumeProfile) (i : Nat) (m r : RoleMap),
      (assumeLoop env sn ps i m).1 = Except.ok r →
      ∀ (k : Nat) (p : AssumeProfile), ps[k]? = some p →
        ∃ c, env.AssumeRole (i + k) (assumeRoleInput sn p) = Except.ok c := by
  intro ps
  induction ps with
  | nil => intro i m r _ k p hk; simp at hk
  | cons q rest ih =>
    intro i m r h k p hk
    obtain ⟨c1, hc1, hrest⟩ := assumeLoop_cons_inv env sn q rest i m r h
    cases k with
    | zero =>
      simp at hk
      subst hk
      exact ⟨c1, by simpa using hc1⟩
    | succ k =>
      obtain ⟨c, hc⟩ := ih (i + 1) _ r hrest k p (by simpa using hk)
      exact ⟨c, by simpa [Nat.add_assoc, Nat.add_comm 1 k] using hc⟩

theorem filter_key_of_nodup {β : Type} (l : List (String × β)) (k : String) (v : β)
    (hnd : (l.map Prod.fst).Nodup) (hmem : (k, v) ∈ l) :
    l.filter (fun e => decide (e.1 = k)) = [(k, v)] := by
  induction l with
  | nil => simp at hmem
  | cons x rest ih =>
    simp only [List.map_cons, List.nodup_cons] at hnd
    obtain ⟨hx, hrest⟩ := hnd
    rcases List.mem_cons.mp hmem with rfl | hr
    · have hnone : rest.filter (fun e => decide (e.1 = k)) = [] := by
        rw [List.filter_eq_nil_iff]
        intro e he hek
        simp only [decide_eq_true_eq] at hek
        exact hx (List.mem_map.mpr ⟨e, he, hek⟩)
      simp [List.filter_cons, hnone]
    · have hne : x.1 ≠ k := by
        intro hxk
        exact hx (List.mem_map.mpr ⟨(k, v), hr, hxk.symm⟩)
      simp [List.filter_cons, hne, ih hrest hr]

theorem count_key {β : Type} (l : List (String × β)) (k : String) :
    (l.map Prod.fst).count k = (l.filter (fun e => decide (e.1 = k))).length := by
  induction l with
  | nil => rfl
  | cons x rest ih =>
    by_cases hx : x.1 = k
    · simp [List.filter_cons, hx, ih]
    · simp [List.filter_cons, hx, ih, List.count_cons]

/-- The stanzas of a run that returns nil: the identity, the session, then the entries of the
map in the order visited; the map has one entry per distinct role name. -/
theorem AssumeAll_nil_stanzas (env : Env) (conf : Config) (path : String) (world : World)
    (hrange : env.RangeVisitsEachOnce)
    (h : (AssumeAll env conf path world).1 = Result.returnedNil) :
    ∃ (idc dc : Credentials) (m : RoleMap) (roles : List (String × Credentials)),
      (assumeLoop env (sessionNameOf env.Now) conf.Profiles 0 []).1 = Except.ok m ∧
      (roles.map (fun e => (e.1, some e.2))).Perm m ∧
      (roles.map Prod.fst).Nodup ∧
      (∀ x, x ∈ roles.map Prod.fst ↔ x ∈ conf.roleNames) ∧
      (AssumeAll env conf path world).2.written =
        world.written ++ [concatStanzas (("identity", idc) :: ("default", dc) :: roles)] := by
  obtain ⟨idCreds, tok, dc, m, roles, _, _, _, hm, hl, hw⟩ :=
    AssumeAll_nil_written env conf path world h
  have hperm : (roles.map (fun e => (e.1, some e.2))).Perm m := hl ▸ hrange m
  have hkeys : (roles.map Prod.fst).Perm m.keys := by
    have := hperm.map Prod.fst
    simpa [RoleMap.keys, List.map_map, Function.comp_def] using this
  obtain ⟨hnd, hmem⟩ := assumeLoop_keys env (sessionNameOf env.Now) conf.Profiles 0 [] m hm
  refine ⟨⟨some idCreds.AccessKeyID, some idCreds.SecretAccessKey, none, none⟩,
    ⟨some dc.AccessKeyID, some dc.SecretAccessKey, some dc.SessionToken, some dc.Expires⟩,
    m, roles, hm, hperm, ?_, ?_, ?_⟩
  · exact hkeys.nodup_iff.mpr (hnd (by simp [RoleMap.keys]))
  · intro x
    rw [hkeys.mem_iff, hmem x]
    simp [RoleMap.keys, Config.roleNames]
  · rw [hw]
    simp [concatStanzas]

/-- C4, amended. When the configured role names are pairwise distinct, the output of a run that
returns nil consists of exactly `len(roles) + 2` stanzas: `identity`, `default`, and then one
for each configured role name, in the order in which the map is visited. When no name and no
credential string of these stanzas holds a line feed, their names are exactly the header lines
`[name]` of the output, in order. -/
theorem stanza_count_for_distinct_names (env : Env) (conf : Config) (path : String)
    (world : World) (hrange : env.RangeVisitsEachOnce) (hdistinct : conf.roleNames.Nodup)
    (h : (AssumeAll env conf path world).1 = Result.returnedNil) :
    ∃ (stanzas : List (String × Credentials)) (visited : List String),
      (AssumeAll env conf path world).2.written = world.written ++ [concatStanzas stanzas] ∧
      stanzas.length = conf.Profiles.length + 2 ∧
      stanzas.map Prod.fst = "identity" :: "default" :: visited ∧
      visited.Perm conf.roleNames ∧
      ((∀ e ∈ stanzas, lineFree e.1 = true ∧ e.2.lineFree = true) →
        stanzaNames (concatStanzas stanzas) = "identity" :: "default" :: visited) := by
  obtain ⟨idc, dc, m, roles, _, _, hnd, hmem, hw⟩ :=
    AssumeAll_nil_stanzas env conf path world hrange h
  have hperm : (roles.map Prod.fst).Perm conf.roleNames :=
    (List.perm_ext_iff_of_nodup hnd hdistinct).mpr hmem
  refine ⟨("identity", idc) :: ("default", dc) :: roles, roles.map Prod.fst, hw, ?_, rfl,
    hperm, ?_⟩
  · have := hperm.length_eq
    simp only [List.length_map, Config.roleNames] at this
    simp [this]
  · intro hfree
    rw [stanzaNames_concatStanzas _ hfree]
    rfl

/-- C10. In a run that returns nil, for a role name `n` other than `identity` and `default`,
carried by one or several configured roles, the output has exactly one stanza named `n`, and
that stanza holds the credentials returned by the assume-role request of the last configured
role named `n`. When no name and no credential string of the output holds a line feed, `[n]`
is a header line of the output exactly once. -/
theorem duplicate_names_last_write_wins (env : Env) (conf : Config) (path : String)
    (world : World) (hrange : env.RangeVisitsEachOnce)
    (h : (AssumeAll env conf path world).1 = Result.returnedNil)
    (n : String) (hn1 : n ≠ "identity") (hn2 : n ≠ "default")
    (k : Nat) (p : AssumeProfile) (hk : conf.Profiles[k]? = some p) (hname : p.Name = n)
    (hlast : ∀ j q, k < j → conf.Profiles[j]? = some q → q.Name ≠ n) :
    ∃ (stanzas : List (String × Credentials)) (creds : Credentials),
      (AssumeAll env conf path world).2.written = world.written ++ [concatStanzas stanzas] ∧
      env.AssumeRole k (assumeRoleInput (sessionNameOf env.Now) p) = Except.ok (some creds) ∧
      stanzas.filter (fun e => decide (e.1 = n)) = [(n, creds)] ∧
      ((∀ e ∈ stanzas, lineFree e.1 = true ∧ e.2.lineFree = true) →
        (stanzaNames (concatStanzas stanzas)).count n = 1) := by
  obtain ⟨idc, dc, m, roles, hm, hperm, hnd, _, hw⟩ :=
    AssumeAll_nil_stanzas env conf path world hrange h
  obtain ⟨c, hc⟩ :=
    assumeLoop_ok_call env (sessionNameOf env.Now) conf.Profiles 0 [] m hm k p hk
  have hin : (p.Name, c) ∈ m :=
    assumeLoop_last_wins env (sessionNameOf env.Now) conf.Profiles 0 [] m hm k p c hk
      (fun j q hj hq => hname ▸ hlast j q hj hq) hc
  obtain ⟨e, he, hee⟩ := List.mem_map.mp (hperm.mem_iff.mpr hin)
  rcases e with ⟨k1, creds⟩
  simp only [Prod.mk.injEq] at hee
  obtain ⟨hk1, hcreds⟩ := hee
  rw [hname] at hk1
  subst hk1
  have hfilter : roles.filter (fun e => decide (e.1 = k1)) = [(k1, creds)] :=
    filter_key_of_nodup roles k1 creds hnd he
  have hall : (("identity", idc) :: ("default", dc) :: roles).filter
      (fun e => decide (e.1 = k1)) = [(k1, creds)] := by
    simp [List.filter_cons, Ne.symm hn1, Ne.symm hn2, hfilter]
  refine ⟨("identity", idc) :: ("default", dc) :: roles, creds, hw, ?_, hall, ?_⟩
  · rw [hcreds]
    simpa using hc
  · intro hfree
    rw [stanzaNames_concatStanzas _ hfree, count_key, hall]
    rfl

/-! ### Sample runs -/

theorem sampleEnv_range : sampleEnv.RangeVisitsEachOnce :=
  fun m => List.reverse_perm m

set_option maxRecDepth 100000 in
theorem sampleEnv_returns_nil :
    (AssumeAll sampleEnv sampleConf "creds" sampleWorld).1 = Result.returnedNil := rfl

set_option maxRecDepth 100000 in
theorem sampleEnv_duplicate_returns_nil :
    (AssumeAll sampleEnv sampleConfDuplicate "creds" sampleWorld).1 = Result.returnedNil := rfl

theorem identity_then_default_then_roles_witness :
    (AssumeAll sampleEnv sampleConf "creds" sampleWorld).1 = Result.returnedNil ∧
    ∃ (idCreds : AwsCredentials) (mfatoken a s t : String) (e : Time)
      (roles : List (String × Credentials)),
      sampleEnv.Retrieve = Except.ok idCreds ∧
      sampleEnv.StdinTokenProvider = Except.ok mfatoken ∧
      sampleEnv.GetSessionToken ⟨some mfatoken, some sampleConf.MFASerial⟩ =
        Except.ok (some ⟨some a, some s, some t, some e⟩) ∧
      (∃ assumedRoles,
        (assumeLoop sampleEnv (sessionNameOf sampleEnv.Now) sampleConf.Profiles 0 []).1 =
          Except.ok assumedRoles ∧
        sampleEnv.rangeOrder assumedRoles = roles.map (fun r => (r.1, some r.2))) ∧
      (AssumeAll sampleEnv sampleConf "creds" sampleWorld).2.written =
        sampleWorld.written ++
          ["[identity]\n" ++
            ("aws_access_key_id = " ++ idCreds.AccessKeyID ++ "\n") ++
            ("aws_secret_access_key = " ++ idCreds.SecretAccessKey ++ "\n") ++
            "\n" ++
            ("[default]\n" ++
              ("aws_access_key_id = " ++ a ++ "\n") ++
              ("aws_secret_access_key = " ++ s ++ "\n") ++
              ("aws_session_token = " ++ t ++ "\n") ++
              ("awsmfa_expiration = " ++ expirationStamp e ++ "\n") ++
              "\n") ++
            concatStanzas roles] :=
  ⟨sampleEnv_returns_nil,
    identity_then_default_then_roles sampleEnv sampleConf "creds" sampleWorld
      sampleEnv_returns_nil⟩

set_option maxRecDepth 100000 in
/-- C4, as stated, fails: three configured roles of which two share the name `prod`. The run
returns nil and its output has the four header lines `[identity]`, `[default]`, `[dev]`,
`[prod]`, not `3 + 2`. -/
theorem stanza_count_with_shared_name :
    sampleConfDuplicate.Profiles ≠ [] ∧
    (AssumeAll sampleEnv sampleConfDuplicate "creds" sampleWorld).1 = Result.returnedNil ∧
    (AssumeAll sampleEnv sampleConfDuplicate "creds" sampleWorld).2.written =
      ["[identity]\naws_access_key_id = AKIAIDENTITY\naws_secret_access_key = identitysecret\n\n[default]\naws_access_key_id = ASIASESSION\naws_secret_access_key = sessionsecret\naws_session_token = sessiontoken\nawsmfa_expiration = 2019-07-03T20:36:31+00:00\n\n[dev]\naws_access_key_id = ASIAROLE\naws_secret_access_key = secret for arn:aws:iam::222:role/Dev\naws_session_token = roletoken\nawsmfa_expiration = 2019-07-03T09:36:31+00:00\n\n[prod]\naws_access_key_id = ASIAROLE\naws_secret_access_key = secret for arn:aws:iam::333:role/Prod\naws_session_token = roletoken\nawsmfa_expiration = 2019-07-03T09:36:31+00:00\n\n"] ∧
    (AssumeAll sampleEnv sampleConfDuplicate "creds" sampleWorld).2.written.map stanzaNames =
      [["identity", "default", "dev", "prod"]] ∧
    ¬ ∀ out ∈ (AssumeAll sampleEnv sampleConfDuplicate "creds" sampleWorld).2.written,
      (stanzaNames out).length = sampleConfDuplicate.Profiles.length + 2 := by
  refine ⟨by decide, rfl, rfl, rfl, ?_⟩
  intro hall
  have h := hall _ (List.mem_singleton.mpr rfl)
  exact absurd h (by decide)

theorem stanza_count_for_distinct_names_witness :
    sampleEnv.RangeVisitsEachOnce ∧ sampleConf.roleNames.Nodup ∧
    (AssumeAll sampleEnv sampleConf "creds" sampleWorld).1 = Result.returnedNil ∧
    ∃ (stanzas : List (String × Credentials)) (visited : List String),
      (AssumeAll sampleEnv sampleConf "creds" sampleWorld).2.written =
        sampleWorld.written ++ [concatStanzas stanzas] ∧
      stanzas.length = sampleConf.Profiles.length + 2 ∧
      stanzas.map Prod.fst = "identity" :: "default" :: visited ∧
      visited.Perm sampleConf.roleNames ∧
      ((∀ e ∈ stanzas, lineFree e.1 = true ∧ e.2.lineFree = true) →
        stanzaNames (concatStanzas stanzas) = "identity" :: "default" :: visited) :=
  ⟨sampleEnv_range, by decide, sampleEnv_returns_nil,
    stanza_count_for_distinct_names sampleEnv sampleConf "creds" sampleWorld sampleEnv_range
      (by decide) sampleEnv_returns_nil⟩

theorem sampleConfDuplicate_last_prod :
    ∀ j q, 2 < j → sampleConfDuplicate.Profiles[j]? = some q → q.Name ≠ "prod" := by
  intro j q hj hq
  have hnone : sampleConfDuplicate.Profiles[j]? = none :=
    List.getElem?_eq_none (by simp [sampleConfDuplicate]; omega)
  rw [hnone] at hq
  cases hq

theorem duplicate_names_last_write_wins_witness :
    sampleEnv.RangeVisitsEachOnce ∧
    (AssumeAll sampleEnv sampleConfDuplicate "creds" sampleWorld).1 = Result.returnedNil ∧
    sampleConfDuplicate.Profiles[0]? = some ⟨"prod", "arn:aws:iam::111:role/Prod"⟩ ∧
    sampleConfDuplicate.Profiles[2]? = some ⟨"prod", "arn:aws:iam::333:role/Prod"⟩ ∧
    ∃ (stanzas : List (String × Credentials)) (creds : Credentials),
      (AssumeAll sampleEnv sampleConfDuplicate "creds" sampleWorld).2.written =
        sampleWorld.written ++ [concatStanzas stanzas] ∧
      sampleEnv.AssumeRole 2
          (assumeRoleInput (sessionNameOf sampleEnv.Now) ⟨"prod", "arn:aws:iam::333:role/Prod"⟩) =
        Except.ok (some creds) ∧
      stanzas.filter (fun e => decide (e.1 = "prod")) = [("prod", creds)] ∧
      ((∀ e ∈ stanzas, lineFree e.1 = true ∧ e.2.lineFree = true) →
        (stanzaNames (concatStanzas stanzas)).count "prod" = 1) :=
  ⟨sampleEnv_range, sampleEnv_duplicate_returns_nil, rfl, rfl,
    duplicate_names_last_write_wins sampleEnv sampleConfDuplicate "creds" sampleWorld
      sampleEnv_range sampleEnv_duplicate_returns_nil "prod" (by decide) (by decide) 2
      ⟨"prod", "arn:aws:iam::333:role/Prod"⟩ rfl rfl sampleConfDuplicate_last_prod⟩

/-! ### The format of one stanza -/

/-- The stamp of a well-formed time: the year in decimal, then nineteen fixed-width
characters and `+00:00`. -/
theorem expirationStamp_data (t : Time) (hwf : t.WellFormed) :
    (expirationStamp t).data =
      (fmtD t.Year).data ++
        ['-', Nat.digitChar (t.Month / 10), Nat.digitChar (t.Month % 10),
          '-', Nat.digitChar (t.Day / 10), Nat.digitChar (t.Day % 10),
          'T', Nat.digitChar (t.Hour / 10), Nat.digitChar (t.Hour % 10),
          ':', Nat.digitChar (t.Minute / 10), Nat.digitChar (t.Minute % 10),
          ':', Nat.digitChar (t.Second / 10), Nat.digitChar (t.Second % 10),
          '+', '0', '0', ':', '0', '0'] := by
  obtain ⟨hm1, hm2, hd1, hd2, hh, hmi, hs⟩ := hwf
  simp only [expirationStamp, String.data_append,
    fmt02d_data t.Month (by omega), fmt02d_data t.Day (by omega), fmt02d_data t.Hour (by omega),
    fmt02d_data t.Minute (by omega), fmt02d_data t.Second (by omega)]
  simp

theorem fmtD_four_digits (y : Int) (h1 : 1000 ≤ y) (h2 : y ≤ 9999) :
    fmtD y = fmt04d y ∧
      (fmtD y).data =
        [Nat.digitChar (y.toNat / 1000), Nat.digitChar (y.toNat / 100 % 10),
          Nat.digitChar (y.toNat / 10 % 10), Nat.digitChar (y.toNat % 10)] := by
  obtain ⟨n, rfl⟩ := Int.eq_ofNat_of_zero_le (by omega : 0 ≤ y)
  have hn1 : 1000 ≤ n := by omega
  have hn2 : n < 10000 := by omega
  refine ⟨?_, ?_⟩
  · show Nat.repr n = fmt04d (Int.ofNat n)
    simp only [fmt04d, show ¬ n < 10 by omega, show ¬ n < 100 by omega,
      show ¬ n < 1000 by omega, if_false]
  · show (Nat.repr n).data = _
    rw [repr_four n hn1 hn2]
    rfl

/-- C5, as stated, fails: for an expiration in the year 999 `writeStanza` writes the year with
three digits, where the zero-padded `YYYY` of the claim is `0999`. -/
theorem writeStanza_year_is_not_padded :
    writeStanza "" "default"
        (some ⟨some "ASIASESSION", some "sessionsecret", some "sessiontoken",
          some ⟨999, 7, 3, 20, 36, 31⟩⟩) =
      some "[default]\naws_access_key_id = ASIASESSION\naws_secret_access_key = sessionsecret\naws_session_token = sessiontoken\nawsmfa_expiration = 999-07-03T20:36:31+00:00\n\n" ∧
    specStamp ⟨999, 7, 3, 20, 36, 31⟩ = "0999-07-03T20:36:31+00:00" ∧
    writeStanza "" "default"
        (some ⟨some "ASIASESSION", some "sessionsecret", some "sessiontoken",
          some ⟨999, 7, 3, 20, 36, 31⟩⟩) ≠
      some ("" ++ stanzaWith specStamp "default" "ASIASESSION" "sessionsecret"
        (some "sessiontoken") (some ⟨999, 7, 3, 20, 36, 31⟩)) := by
  refine ⟨by decide, by decide, by decide⟩

/-- C5, amended. For a credential set with both keys, `writeStanza` appends exactly: the header
line `[<name>]`; the lines `aws_access_key_id = <id>` and `aws_secret_access_key = <secret>`;
the line `aws_session_token = <token>` exactly when a token is present; the line
`awsmfa_expiration = <stamp>` exactly when an expiration is present; and a final empty line.
The stamp is the year in plain decimal (no padding), then `-MM-DDTHH:MM:SS` with each field
zero-padded to two digits, then `+00:00`; for a year in 1000..9999 the year has exactly four
digits and the stamp is the zero-padded `YYYY-MM-DDTHH:MM:SS+00:00`. -/
theorem writeStanza_format (w name id secret : String) (token : Option String)
    (expiration : Option Time) :
    writeStanza w name (some ⟨some id, some secret, token, expiration⟩) =
      some (w ++
        ("[" ++ name ++ "]\n" ++
        ("aws_access_key_id = " ++ id ++ "\n") ++
        ("aws_secret_access_key = " ++ secret ++ "\n") ++
        (match token with
          | some t => "aws_session_token = " ++ t ++ "\n"
          | none => "") ++
        (match expiration with
          | some e => "awsmfa_expiration = " ++ expirationStamp e ++ "\n"
          | none => "") ++
        "\n")) ∧
    ∀ e, expiration = some e → e.WellFormed →
      ((expirationStamp e).data =
        (fmtD e.Year).data ++
          ['-', Nat.digitChar (e.Month / 10), Nat.digitChar (e.Month % 10),
            '-', Nat.digitChar (e.Day / 10), Nat.digitChar (e.Day % 10),
            'T', Nat.digitChar (e.Hour / 10), Nat.digitChar (e.Hour % 10),
            ':', Nat.digitChar (e.Minute / 10), Nat.digitChar (e.Minute % 10),
            ':', Nat.digitChar (e.Second / 10), Nat.digitChar (e.Second % 10),
            '+', '0', '0', ':', '0', '0']) ∧
      (1000 ≤ e.Year → e.Year ≤ 9999 →
        expirationStamp e = specStamp e ∧
        (fmtD e.Year).data =
          [Nat.digitChar (e.Year.toNat / 1000), Nat.digitChar (e.Year.toNat / 100 % 10),
            Nat.digitChar (e.Year.toNat / 10 % 10), Nat.digitChar (e.Year.toNat % 10)]) := by
  refine ⟨writeStanza_full w name id secret token expiration, ?_⟩
  intro e _ hwf
  refine ⟨expirationStamp_data e hwf, ?_⟩
  intro h1 h2
  obtain ⟨h3, h4⟩ := fmtD_four_digits e.Year h1 h2
  exact ⟨by simp only [expirationStamp, specStamp, h3], h4⟩

theorem writeStanza_format_witness :
    writeStanza "" "default" (some sampleSession) =
      some "[default]\naws_access_key_id = ASIASESSION\naws_secret_access_key = sessionsecret\naws_session_token = sessiontoken\nawsmfa_expiration = 2019-07-03T20:36:31+00:00\n\n" ∧
    (expirationStamp ⟨2019, 7, 3, 20, 36, 31⟩).data =
      ['2', '0', '1', '9', '-', '0', '7', '-', '0', '3', 'T', '2', '0', ':', '3', '6', ':',
        '3', '1', '+', '0', '0', ':', '0', '0'] ∧
    expirationStamp ⟨2019, 7, 3, 20, 36, 31⟩ = specStamp ⟨2019, 7, 3, 20, 36, 31⟩ :=
  ⟨(writeStanza_format "" "default" "ASIASESSION" "sessionsecret" (some "sessiontoken")
      (some ⟨2019, 7, 3, 20, 36, 31⟩)).1,
    ((writeStanza_format "" "default" "ASIASESSION" "sessionsecret" (some "sessiontoken")
      (some ⟨2019, 7, 3, 20, 36, 31⟩)).2 ⟨2019, 7, 3, 20, 36, 31⟩ rfl (by decide)).1,
    (((writeStanza_format "" "default" "ASIASESSION" "sessionsecret" (some "sessiontoken")
      (some ⟨2019, 7, 3, 20, 36, 31⟩)).2 ⟨2019, 7, 3, 20, 36, 31⟩ rfl (by decide)).2
        (by decide) (by decide)).1⟩

/-! ### `time.Parse` with the layout of the source -/

theorem chunk_day :
    nextStdChunk "2019-07-03T08:36:31+00:00".data =
      ([], some Std.stdDay, "019-07-03T08:36:31+00:00".data) := by rfl

theorem chunk_month :
    nextStdChunk "019-07-03T08:36:31+00:00".data =
      ([], some Std.stdZeroMonth, "9-07-03T08:36:31+00:00".data) := by rfl

theorem chunk_zone :
    nextStdChunk "9-07-03T08:36:31+00:00".data =
      (['9'], some Std.stdNumShortTZ, "-03T08:36:31+00:00".data) := by rfl

theorem chunk_hour12 :
    nextStdChunk "-03T08:36:31+00:00".data =
      (['-'], some Std.stdZeroHour12, "T08:36:31+00:00".data) := by rfl

theorem chunk_minute_as_hour :
    nextStdChunk "T08:36:31+00:00".data =
      (['T', '0', '8', ':'], some Std.stdHour12, "6:31+00:00".data) := by rfl

theorem chunk_second_as_hour :
    nextStdChunk "6:31+00:00".data =
      (['6', ':'], some Std.stdHour12, "1+00:00".data) := by rfl

theorem skip_nil (value : List Char) : skip value [] = (value, false) := by
  cases value <;> rfl

theorem getnum_fixed_cases (value : List Char) :
    (getnum value true).2.2 = true ∨
      ∃ x y r, value = x :: y :: r ∧ x.isDigit = true ∧ y.isDigit = true ∧
        (getnum value true).2.1 = r := by
  rcases value with _ | ⟨x, _ | ⟨y, r⟩⟩
  · left; rfl
  · left
    by_cases hx : x.isDigit = true <;> simp [getnum, hx]
  · by_cases hx : x.isDigit = true
    · by_cases hy : y.isDigit = true
      · right
        exact ⟨x, y, r, rfl, hx, hy, by simp [getnum, hx, hy]⟩
      · left; simp [getnum, hx, hy]
    · left; simp [getnum, hx]

theorem getnum_free_cases (value : List Char) :
    (getnum value false).2.2 = true ∨
      (∃ x y r, value = x :: y :: r ∧ x.isDigit = true ∧ y.isDigit = true ∧
        (getnum value false).2.1 = r) ∨
      (∃ x r, value = x :: r ∧ x.isDigit = true ∧
        (∀ y r1, r = y :: r1 → y.isDigit = false) ∧ (getnum value false).2.1 = r) := by
  rcases value with _ | ⟨x, _ | ⟨y, r⟩⟩
  · left; rfl
  · by_cases hx : x.isDigit = true
    · right; right
      exact ⟨x, [], rfl, hx, by simp, by simp [getnum, hx]⟩
    · left; simp [getnum, hx]
  · by_cases hx : x.isDigit = true
    · by_cases hy : y.isDigit = true
      · right; left
        exact ⟨x, y, r, rfl, hx, hy, by simp [getnum, hx, hy]⟩
      · right; right
        refine ⟨x, y :: r, rfl, hx, ?_, by simp [getnum, hx, hy]⟩
        intro y1 r1 h1
        simp only [List.cons.injEq] at h1
        rw [← h1.1]
        simpa using hy
    · left; simp [getnum, hx]

theorem arm_outcome (range : String) (err : Bool) (e1 e2 : ParseError)
    (K : Option (Except ParseError ParseState))
    (hK : err = false → ∃ e, K = some (Except.error e)) :
    ∃ e, (if range ≠ "" then some (Except.error e1)
      else if err = true then some (Except.error e2) else K) = some (Except.error e) := by
  by_cases h1 : range ≠ ""
  · exact ⟨e1, by rw [if_pos h1]⟩
  · cases err with
    | true => exact ⟨e2, by rw [if_neg h1, if_pos rfl]⟩
    | false =>
      obtain ⟨e, he⟩ := hK rfl
      exact ⟨e, by rw [if_neg h1, if_neg (by decide), he]⟩

theorem rejects_at_zone (L V : String) (n : Nat) (value : List Char)
    (h : value.head? ≠ some '9') :
    Rejects L V (n + 1) "9-07-03T08:36:31+00:00".data value := by
  intro st
  rw [parseLoop, chunk_zone]
  have hs : (skip value ['9']).2 = true := by
    cases value with
    | nil => rfl
    | cons v vs =>
      have hv : v ≠ '9' := by simpa using h
      simp [skip, skipRounds, hv]
  simp only [hs, if_true]
  exact ⟨_, rfl⟩

theorem rejects_at_month (L V : String) (n : Nat) (value : List Char)
    (h : ∀ x y r, value = x :: y :: r → x.isDigit = true → y.isDigit = true →
      Rejects L V (n + 1) "9-07-03T08:36:31+00:00".data r) :
    Rejects L V (n + 2) "019-07-03T08:36:31+00:00".data value := by
  intro st
  rw [parseLoop, chunk_month]
  simp only [skip_nil, Bool.false_eq_true, if_false, parseArm, decide_True]
  refine arm_outcome _ _ _ _ _ ?_
  intro h2
  rcases getnum_fixed_cases value with herr | ⟨x, y, r, hv, hx, hy, hr⟩
  · rw [herr] at h2
    cases h2
  · rw [hr]
    exact h x y r hv hx hy _

theorem rejects_at_day (L V : String) (n : Nat) (value : List Char)
    (h : ∀ x y r, value = x :: y :: r → x.isDigit = true → y.isDigit = true →
      Rejects L V (n + 2) "019-07-03T08:36:31+00:00".data r) :
    Rejects L V (n + 3) "2019-07-03T08:36:31+00:00".data value := by
  intro st
  rw [parseLoop, chunk_day]
  have hd : decide (Std.stdDay = Std.stdZeroDay) = false := by decide
  simp only [skip_nil, Bool.false_eq_true, if_false, parseArm, hd]
  refine arm_outcome _ _ _ _ _ ?_
  intro h2
  rcases getnum_free_cases value with herr | ⟨x, y, r, hv, hx, hy, hr⟩ |
    ⟨x, r, hv, hx, hnext, hr⟩
  · rw [herr] at h2
    cases h2
  · rw [hr]
    exact h x y r hv hx hy _
  · rw [hr]
    refine rejects_at_month L V n r ?_ _
    intro x1 y1 r1 hr1 hx1 _
    rw [hnext x1 (y1 :: r1) hr1] at hx1
    cases hx1

theorem rejects_at_second (L V : String) (n : Nat) (value : List Char)
    (h : value.head? ≠ some '6') :
    Rejects L V (n + 1) "6:31+00:00".data value := by
  intro st
  rw [parseLoop, chunk_second_as_hour]
  have hs : (skip value ['6', ':']).2 = true := by
    cases value with
    | nil => rfl
    | cons v vs =>
      have hv : v ≠ '6' := by simpa using h
      simp [skip, skipRounds, hv]
  simp only [hs, if_true]
  exact ⟨_, rfl⟩

theorem skip_T08 (h1 h2 : Char) (r : List Char) :
    skip ('T' :: h1 :: h2 :: ':' :: r) ['T', '0', '8', ':'] =
      if h1 = '0' ∧ h2 = '8' then (r, false)
      else if h1 = '0' then (h2 :: ':' :: r, true)
      else (h1 :: h2 :: ':' :: r, true) := by
  by_cases e1 : h1 = '0'
  · by_cases e2 : h2 = '8'
    · subst e1 e2; rfl
    · subst e1
      simp [skip, skipRounds, e2]
  · simp [skip, skipRounds, e1]

theorem rejects_at_minute (L V : String) (n : Nat) (h1 h2 m1 m2 : Char) (more : List Char) :
    Rejects L V (n + 2) "T08:36:31+00:00".data
      ('T' :: h1 :: h2 :: ':' :: m1 :: m2 :: ':' :: more) := by
  intro st
  rw [parseLoop, chunk_minute_as_hour, skip_T08]
  by_cases e : h1 = '0' ∧ h2 = '8'
  · have hd : decide (Std.stdHour12 = Std.stdZeroHour12) = false := by decide
    simp only [e, and_self, if_true, Bool.false_eq_true, if_false, parseArm, hd]
    refine arm_outcome _ _ _ _ _ ?_
    intro herr
    rcases getnum_free_cases (m1 :: m2 :: ':' :: more) with hbad | ⟨x, y, r, hv, _, _, hr⟩ |
      ⟨x, r, hv, _, hnext, hr⟩
    · rw [hbad] at herr
      cases herr
    · rw [hr]
      simp only [List.cons.injEq] at hv
      obtain ⟨_, _, rfl⟩ := hv
      exact rejects_at_second L V n _ (by simp) _
    · rw [hr]
      simp only [List.cons.injEq] at hv
      obtain ⟨_, rfl⟩ := hv
      refine rejects_at_second L V n _ ?_ _
      intro h6
      have hm2 : m2 = '6' := by simpa using h6
      have := hnext m2 (':' :: more) rfl
      rw [hm2] at this
      cases this
  · by_cases e1 : h1 = '0'
    · have e2 : ¬ h2 = '8' := fun h => e ⟨e1, h⟩
      simp only [e1, e2, and_false, if_false, if_true]
      exact ⟨_, rfl⟩
    · simp only [e1, false_and, if_false, if_true]
      exact ⟨_, rfl⟩

theorem rejects_at_hour12 (L V : String) (n : Nat) (d1 d2 : Char) (tail : List Char)
    (h : Rejects L V (n + 2) "T08:36:31+00:00".data tail) :
    Rejects L V (n + 3) "-03T08:36:31+00:00".data ('-' :: d1 :: d2 :: tail) := by
  intro st
  rw [parseLoop, chunk_hour12]
  have hs : skip ('-' :: d1 :: d2 :: tail) ['-'] = (d1 :: d2 :: tail, false) := by
    simp [skip, skipRounds]
  simp only [hs, Bool.false_eq_true, if_false, parseArm, decide_True]
  refine arm_outcome _ _ _ _ _ ?_
  intro herr
  rcases getnum_fixed_cases (d1 :: d2 :: tail) with hbad | ⟨x, y, r, hv, _, _, hr⟩
  · rw [hbad] at herr
    cases herr
  · rw [hr]
    simp only [List.cons.injEq] at hv
    obtain ⟨_, _, rfl⟩ := hv
    exact h _

theorem rejects_at_zone_sign (L V : String) (n : Nat) (c : Char) (more : List Char)
    (hp : c ≠ '+') (hm : c ≠ '-') :
    Rejects L V (n + 1) "9-07-03T08:36:31+00:00".data ('9' :: c :: more) := by
  intro st
  rw [parseLoop, chunk_zone]
  have hs : skip ('9' :: c :: more) ['9'] = (c :: more, false) := by
    simp [skip, skipRounds]
  simp only [hs, Bool.false_eq_true, if_false, parseArm]
  by_cases hlen : (c :: more).length < 3
  · simp only [hlen, if_true]
    exact ⟨_, rfl⟩
  · simp only [hlen, if_false, List.take_succ_cons, List.take_zero, List.cons.injEq, hp, hm,
      and_true]
    exact ⟨_, rfl⟩

theorem rejects_at_zone_dash (L V : String) (n : Nat) (m1 m2 : Char) (tail : List Char)
    (h : Rejects L V (n + 3) "-03T08:36:31+00:00".data tail) :
    Rejects L V (n + 4) "9-07-03T08:36:31+00:00".data ('9' :: '-' :: m1 :: m2 :: tail) := by
  intro st
  rw [parseLoop, chunk_zone]
  have hs : skip ('9' :: '-' :: m1 :: m2 :: tail) ['9'] = ('-' :: m1 :: m2 :: tail, false) := by
    simp [skip, skipRounds]
  have hlen : ¬ ('-' :: m1 :: m2 :: tail).length < 3 := by simp
  have hplus : ¬ (['-'] : List Char) = ['+'] := by decide
  simp only [hs, Bool.false_eq_true, if_false, parseArm, hlen, List.take_succ_cons,
    List.take_zero, hplus, if_true, List.drop_succ_cons, List.drop_zero]
  refine arm_outcome _ _ _ _ _ ?_
  intro _
  exact h _

theorem not_isDigit_dash : ('-' : Char).isDigit = false := by decide

/-- The layout of the source rejects every value made of a run of characters `ys` without a
sign after its first character, followed by `-MM-DDTHH:MM:SS` and anything. -/
theorem rejects_stamp_shape (L V : String) (n : Nat) (ys : List Char)
    (m1 m2 d1 d2 h1 h2 mi1 mi2 : Char) (more : List Char)
    (hys : ∀ c ∈ ys.drop 1, c ≠ '+' ∧ c ≠ '-') :
    Rejects L V (n + 6) "2019-07-03T08:36:31+00:00".data
      (ys ++ '-' :: m1 :: m2 :: '-' :: d1 :: d2 :: 'T' :: h1 :: h2 :: ':' :: mi1 :: mi2 ::
        ':' :: more) := by
  refine rejects_at_day L V (n + 3) _ ?_
  intro x y r hv hx hy
  refine rejects_at_month L V (n + 3) _ ?_
  intro x1 y1 r1 hr hx1 hy1
  subst hr
  rcases ys with _ | ⟨a, _ | ⟨b, _ | ⟨c, _ | ⟨d, _ | ⟨e, tl⟩⟩⟩⟩⟩
  · simp only [List.nil_append, List.cons.injEq] at hv
    rw [← hv.1, not_isDigit_dash] at hx
    cases hx
  · simp only [List.cons_append, List.nil_append, List.cons.injEq] at hv
    rw [← hv.2.1, not_isDigit_dash] at hy
    cases hy
  · simp only [List.cons_append, List.nil_append, List.cons.injEq] at hv
    rw [← hv.2.2.1, not_isDigit_dash] at hx1
    cases hx1
  · simp only [List.cons_append, List.nil_append, List.cons.injEq] at hv
    rw [← hv.2.2.2.1, not_isDigit_dash] at hy1
    cases hy1
  · simp only [List.cons_append, List.nil_append, List.cons.injEq] at hv
    rw [← hv.2.2.2.2]
    exact rejects_at_zone L V (n + 3) _ (by simp)
  · simp only [List.cons_append, List.cons.injEq] at hv
    rw [← hv.2.2.2.2]
    by_cases he : e = '9'
    · subst he
      cases tl with
      | nil =>
        exact rejects_at_zone_dash L V n m1 m2 _
          (rejects_at_hour12 L V n d1 d2 _ (rejects_at_minute L V n h1 h2 mi1 mi2 more))
      | cons f tl1 =>
        have hf := hys f (by simp)
        exact rejects_at_zone_sign L V (n + 3) f _ hf.1 hf.2
    · exact rejects_at_zone L V (n + 3) _ (by simpa using he)

theorem digitChar_ne_sign (d : Nat) : Nat.digitChar d ≠ '+' ∧ Nat.digitChar d ≠ '-' := by
  by_cases h : d < 16
  · interval_cases d <;> exact ⟨by decide, by decide⟩
  · have e : Nat.digitChar d = '*' := by
      unfold Nat.digitChar
      simp only [show d ≠ 0 by omega, show d ≠ 1 by omega, show d ≠ 2 by omega,
        show d ≠ 3 by omega, show d ≠ 4 by omega, show d ≠ 5 by omega, show d ≠ 6 by omega,
        show d ≠ 7 by omega, show d ≠ 8 by omega, show d ≠ 9 by omega, show d ≠ 10 by omega,
        show d ≠ 11 by omega, show d ≠ 12 by omega, show d ≠ 13 by omega,
        show d ≠ 14 by omega, show d ≠ 15 by omega, if_false]
    rw [e]
    exact ⟨by decide, by decide⟩

theorem fmtD_tail_unsigned (y : Int) : ∀ c ∈ (fmtD y).data.drop 1, c ≠ '+' ∧ c ≠ '-' := by
  intro c hc
  cases y with
  | ofNat n =>
    obtain ⟨d, rfl⟩ := repr_chars n c (List.mem_of_mem_drop hc)
    exact digitChar_ne_sign d
  | negSucc n =>
    have hd : (fmtD (Int.negSucc n)).data.drop 1 = (Nat.repr (n + 1)).data := by
      simp [fmtD, String.data_append]
    rw [hd] at hc
    obtain ⟨d, rfl⟩ := repr_chars (n + 1) c hc
    exact digitChar_ne_sign d

/-- The layout of the source rejects every expiration stamp that `writeStanza` writes. -/
theorem timeParse_rejects_expirationStamp (t : Time) (hwf : t.WellFormed) :
    ∃ e, timeParse "2019-07-03T08:36:31+00:00" (expirationStamp t) = some (Except.error e) := by
  have hlen : ("2019-07-03T08:36:31+00:00" : String).length + 1 = 20 + 6 := by decide
  have hrej := rejects_stamp_shape "2019-07-03T08:36:31+00:00" (expirationStamp t) 20
    (fmtD t.Year).data
    (Nat.digitChar (t.Month / 10)) (Nat.digitChar (t.Month % 10))
    (Nat.digitChar (t.Day / 10)) (Nat.digitChar (t.Day % 10))
    (Nat.digitChar (t.Hour / 10)) (Nat.digitChar (t.Hour % 10))
    (Nat.digitChar (t.Minute / 10)) (Nat.digitChar (t.Minute % 10))
    [Nat.digitChar (t.Second / 10), Nat.digitChar (t.Second % 10), '+', '0', '0', ':', '0', '0']
    (fmtD_tail_unsigned t.Year)
  obtain ⟨e, he⟩ := hrej ⟨0, 1, 1, 0, 0, 0, -1⟩
  refine ⟨e, ?_⟩
  rw [← expirationStamp_data t hwf] at he
  simp only [timeParse, hlen, he]

theorem expirationStamp_ne_empty (t : Time) : expirationStamp t ≠ "" := by
  intro h
  have := congrArg String.data h
  simp [expirationStamp, String.data_append] at this

theorem loadSections_rejects (loaded : MiniConfig) (profile : String) (t : Time)
    (hwf : t.WellFormed)
    (hexp : loaded.StringFromSection profile "awsmfa_expiration" "" = expirationStamp t) :
    ∀ (names : List String) (p : Profile), profile ∈ names →
      ∃ p1 e,
        timeParse "2019-07-03T08:36:31+00:00" (expirationStamp t) = some (Except.error e) ∧
        loadSections loaded profile names p =
          some (p1, some ("timestamp parse error in section " ++ profile ++ ": " ++ e.Error)) := by
  obtain ⟨e, he⟩ := timeParse_rejects_expirationStamp t hwf
  intro names
  induction names with
  | nil => intro p h; simp at h
  | cons name rest ih =>
    intro p hmem
    by_cases hname : name = profile
    · subst hname
      refine ⟨{ p with
          Name := name
          AWSAccessKeyID := loaded.StringFromSection name "aws_access_key_id" ""
          AWSSecretAccessKey := loaded.StringFromSection name "aws_secret_access_key" ""
          AWSSessionToken := loaded.StringFromSection name "aws_session_token" "" }, e, he, ?_⟩
      simp only [loadSections, if_true, hexp, ne_eq, expirationStamp_ne_empty, not_false_eq_true,
        he]
    · have hrest : profile ∈ rest := by
        rcases List.mem_cons.mp hmem with h | h
        · exact absurd h.symm hname
        · exact h
      obtain ⟨p1, e1, h1, h2⟩ := ih p hrest
      exact ⟨p1, e1, h1, by simp only [loadSections, hname, if_false, h2]⟩

/-- C1, the defect. Whenever the INI reader loads the file, finds the section of the profile
and hands back for `awsmfa_expiration` the stamp that `writeStanza` wrote for a time `t`,
`time.Parse` with the layout `2019-07-03T08:36:31+00:00` rejects that stamp and
`LoadExistingProfile` returns the error `timestamp parse error in section <profile>: ...`
instead of the profile with the expiration. -/
theorem LoadExistingProfile_rejects_written_expiration
    (LoadConfiguration : String → Except String MiniConfig) (path profile : String)
    (loaded : MiniConfig) (t : Time) (hwf : t.WellFormed)
    (hload : LoadConfiguration path = Except.ok loaded)
    (hsection : profile ∈ loaded.SectionNames)
    (hexp : loaded.StringFromSection profile "awsmfa_expiration" "" = expirationStamp t) :
    ∃ p e,
      timeParse "2019-07-03T08:36:31+00:00" (expirationStamp t) = some (Except.error e) ∧
      LoadExistingProfile LoadConfiguration path profile =
        some (p, some ("timestamp parse error in section " ++ profile ++ ": " ++ e.Error)) := by
  obtain ⟨p1, e, he, hl⟩ :=
    loadSections_rejects loaded profile t hwf hexp loaded.SectionNames
      ⟨"", "", "", "", ⟨1, 1, 1, 0, 0, 0⟩⟩ hsection
  exact ⟨p1, e, he, by simp only [LoadExistingProfile, hload, hl]⟩

set_option maxRecDepth 100000 in
theorem LoadExistingProfile_rejects_written_expiration_witness :
    (writeStanza "" "default" (some sampleSession) =
      some "[default]\naws_access_key_id = ASIASESSION\naws_secret_access_key = sessionsecret\naws_session_token = sessiontoken\nawsmfa_expiration = 2019-07-03T20:36:31+00:00\n\n") ∧
    sampleLoaded.StringFromSection "default" "awsmfa_expiration" "" =
      expirationStamp ⟨2019, 7, 3, 20, 36, 31⟩ ∧
    LoadExistingProfile (fun _ => Except.ok sampleLoaded) "creds" "default" =
      some (⟨"default", "ASIASESSION", "sessionsecret", "sessiontoken", ⟨1, 1, 1, 0, 0, 0⟩⟩,
        some "timestamp parse error in section default: parsing time \"2019-07-03T20:36:31+00:00\": month out of range") ∧
    ∃ p e,
      timeParse "2019-07-03T08:36:31+00:00" (expirationStamp ⟨2019, 7, 3, 20, 36, 31⟩) =
        some (Except.error e) ∧
      LoadExistingProfile (fun _ => Except.ok sampleLoaded) "creds" "default" =
        some (p, some ("timestamp parse error in section " ++ "default" ++ ": " ++ e.Error)) :=
  ⟨rfl, rfl, rfl,
    LoadExistingProfile_rejects_written_expiration (fun _ => Except.ok sampleLoaded) "creds"
      "default" sampleLoaded ⟨2019, 7, 3, 20, 36, 31⟩ (by decide) rfl (by decide) rfl⟩

end Multirole
